import Mathlib

/-!
# Geometry catalog and runtime state of `src/multibody/geometry.hxx`

A shallow embedding of `GeometryModel` (the catalog of geometry objects and
collision pairs) and `GeometryData` (the per-evaluation runtime state) in the
build with collision support, followed by the properties proved about them.

Conventions of the embedding:

* `std::vector` is a `List`; the index types (`GeomIndex`, `JointIndex`,
  `FrameIndex`, `PairIndex`, all `std::size_t`) are `Nat`;
* a member function that mutates its object returns the outcome of the call
  together with the object as the call leaves it, so that the state after a
  thrown exception can be talked about;
* `PINOCCHIO_CHECK_INPUT_ARGUMENT(c, msg)` throws `std::invalid_argument` when
  `c` is false: outcome `Error.invalidArgument`;
* `v[i]` with `i` past the end of the vector `v` is undefined in C++: outcome
  `Error.outOfRange`.
-/

namespace Pinocchio

/-- The two ways a call can go wrong. -/
inductive Error where
  | invalidArgument
  | outOfRange
  deriving DecidableEq, Repr

deriving instance DecidableEq for Except

/-- Outcome of a call paired with the object as the call leaves it. -/
abbrev Run (σ α : Type) := Except Error α × σ

/-- Modelled from the spec: `GeometryObject` is declared outside `geometry.hxx`.
The spec gives it a name, an owning joint index, an owning frame index and a
shape handle; the handle is kept as a number. -/
structure GeometryObject where
  name : String
  parentFrame : Nat
  parentJoint : Nat
  geometry : Nat
  deriving DecidableEq, Repr

/-- Modelled from the spec: `CollisionPair` is declared outside `geometry.hxx`;
it carries the two geometry indices `first` and `second`. -/
structure CollisionPair where
  first : Nat
  second : Nat
  deriving DecidableEq, Repr

/-- The comparison `CollisionPair::operator==` used by `std::find` is declared
outside `geometry.hxx`. Both readings are kept: `exact` compares the stored
members in order, `symmetric` also accepts the reversed pair. -/
inductive PairEquality where
  | exact
  | symmetric
  deriving DecidableEq, Repr

/-- Modelled from the spec: equality of collision pairs. Under `symmetric` the pair
is "an unordered pair" and "a pair and its reverse are considered the same logical
test"; it is the comparison with which `addCollisionPair`, which tests
`existCollisionPair(pair)` only, rejects "duplicate insertion in either order".
Under `exact` it is "pair-wise exact (order-sensitive as stored)". -/
def CollisionPair.eqv : PairEquality → CollisionPair → CollisionPair → Bool
  | .exact, p, q => p.first == q.first && p.second == q.second
  | .symmetric, p, q =>
      (p.first == q.first && p.second == q.second)
        || (p.first == q.second && p.second == q.first)

/-- Modelled from the spec: a frame of the kinematic model, of which only the
parent joint is read. -/
structure Frame where
  parent : Nat
  deriving DecidableEq, Repr

/-- Modelled from the spec: the kinematic model, read through `nframes` and
`frames[i].parent` only. -/
structure Model where
  nframes : Nat
  frames : List Frame
  deriving DecidableEq, Repr

/-- The catalog: `ngeoms`, `geometryObjects`, `collisionPairs`. -/
structure GeometryModel where
  ngeoms : Nat
  geometryObjects : List GeometryObject
  collisionPairs : List CollisionPair
  deriving DecidableEq, Repr

/-- Modelled from the spec: a world placement, default-constructed by
`GeometryData`; declared outside `geometry.hxx`. -/
structure SE3 where
  handle : Nat
  deriving DecidableEq, Repr, Inhabited

/-- Modelled from the spec: a result slot of the proximity engine (distance or
contact), default-constructed by `GeometryData`. -/
structure ProximityResult where
  handle : Nat
  deriving DecidableEq, Repr, Inhabited

/-- Modelled from the spec: the engine-side object built from a shape handle. -/
structure CollisionObject where
  geometry : Nat
  deriving DecidableEq, Repr

/-- A `std::map<JointIndex, std::vector<GeomIndex>>`: entries in strictly
increasing key order. -/
abbrev JointMap := List (Nat × List Nat)

/-- The vector stored under `j`, empty when the key is absent. -/
def JointMap.get : JointMap → Nat → List Nat
  | [], _ => []
  | (k, v) :: rest, j => if j = k then v else JointMap.get rest j

/-- The statement `map[j].push_back(g)`: `operator[]` creates an empty vector
under a missing key, at the key's place in the order. -/
def JointMap.pushBack : JointMap → Nat → Nat → JointMap
  | [], j, g => [(j, [g])]
  | (k, v) :: rest, j, g =>
      if j < k then (j, [g]) :: (k, v) :: rest
      else if j = k then (k, v ++ [g]) :: rest
      else (k, v) :: JointMap.pushBack rest j g

/-- The runtime state. The two request objects (constant engine settings) are
left out. -/
structure GeometryData where
  oMg : List SE3
  activeCollisionPairs : List Bool
  distanceResults : List ProximityResult
  collisionResults : List ProximityResult
  radius : List Nat
  collisionPairIndex : Nat
  innerObjects : JointMap
  outerObjects : JointMap
  collisionObjects : List CollisionObject
  deriving DecidableEq, Repr

/-- A loop over the index values `xs`, left at the first failing iteration. -/
def forEach {σ : Type} (body : Nat → σ → Run σ Unit) : List Nat → σ → Run σ Unit
  | [], s => (.ok (), s)
  | x :: xs, s =>
      match body x s with
      | (.ok _, s1) => forEach body xs s1
      | (.error e, s1) => (.error e, s1)

/-! ## GeometryModel -/

/-- `GeometryModel::addGeometryObject(object, model)`. -/
def addGeometryObjectWithModel (m : GeometryModel) (object : GeometryObject) (model : Model) :
    Run GeometryModel Nat :=
  let checked : Except Error Unit :=
    if object.parentFrame < model.nframes then
      match model.frames[object.parentFrame]? with
      | none => .error .outOfRange
      | some fr => if fr.parent = object.parentJoint then .ok () else .error .invalidArgument
    else .ok ()
  match checked with
  | .error e => (.error e, m)
  | .ok _ =>
      let idx := m.ngeoms
      let m1 : GeometryModel :=
        { m with ngeoms := m.ngeoms + 1, geometryObjects := m.geometryObjects ++ [object] }
      match model.frames[object.parentFrame]? with
      | none => (.error .outOfRange, m1)
      | some fr =>
          (.ok idx,
            { m1 with
              geometryObjects := m.geometryObjects ++ [{ object with parentJoint := fr.parent }] })

/-- `GeometryModel::addGeometryObject(object)`. -/
def addGeometryObject (m : GeometryModel) (object : GeometryObject) : Run GeometryModel Nat :=
  (.ok m.ngeoms,
    { m with ngeoms := m.ngeoms + 1, geometryObjects := m.geometryObjects ++ [object] })

/-- `GeometryModel::getGeometryId`: position of the first object named `name`,
the length of the list when there is none. -/
def getGeometryId (m : GeometryModel) (name : String) : Nat :=
  m.geometryObjects.findIdx (fun o => o.name == name)

/-- `GeometryModel::existGeometryName`: the scan does not end at `end()`. -/
def existGeometryName (m : GeometryModel) (name : String) : Bool :=
  m.geometryObjects.findIdx (fun o => o.name == name) != m.geometryObjects.length

/-- `GeometryModel::findCollisionPair`: `std::distance(begin, std::find(...))`. -/
def findCollisionPair (k : PairEquality) (m : GeometryModel) (pair : CollisionPair) : Nat :=
  m.collisionPairs.findIdx (fun p => CollisionPair.eqv k p pair)

/-- `GeometryModel::existCollisionPair`: `std::find(...) != end()`. -/
def existCollisionPair (k : PairEquality) (m : GeometryModel) (pair : CollisionPair) : Bool :=
  m.collisionPairs.findIdx (fun p => CollisionPair.eqv k p pair) != m.collisionPairs.length

/-- `GeometryModel::addCollisionPair`. -/
def addCollisionPair (k : PairEquality) (m : GeometryModel) (pair : CollisionPair) :
    Run GeometryModel Unit :=
  if ¬ pair.first < m.ngeoms then (.error .invalidArgument, m)
  else if ¬ pair.second < m.ngeoms then (.error .invalidArgument, m)
  else if !existCollisionPair k m pair then
    (.ok (), { m with collisionPairs := m.collisionPairs ++ [pair] })
  else (.ok (), m)

/-- `GeometryModel::removeAllCollisionPairs`. -/
def removeAllCollisionPairs (m : GeometryModel) : GeometryModel :=
  { m with collisionPairs := [] }

/-- Body of the inner loop of `addAllCollisionPairs` at `j`. -/
def addAllInnerBody (k : PairEquality) (i : Nat) (joint_i : Nat) (j : Nat)
    (m : GeometryModel) : Run GeometryModel Unit :=
  match m.geometryObjects[j]? with
  | none => (.error .outOfRange, m)
  | some oj =>
      if joint_i ≠ oj.parentJoint then addCollisionPair k m ⟨i, j⟩ else (.ok (), m)

/-- Body of the outer loop of `addAllCollisionPairs` at `i`: `j` runs over
`i+1, ..., ngeoms-1`. -/
def addAllOuterBody (k : PairEquality) (i : Nat) (m : GeometryModel) :
    Run GeometryModel Unit :=
  match m.geometryObjects[i]? with
  | none => (.error .outOfRange, m)
  | some oi =>
      forEach (addAllInnerBody k i oi.parentJoint) (List.range' (i + 1) (m.ngeoms - (i + 1))) m

/-- `GeometryModel::addAllCollisionPairs`: `i` runs over `0, ..., ngeoms-1`. -/
def addAllCollisionPairs (k : PairEquality) (m : GeometryModel) : Run GeometryModel Unit :=
  let m0 := removeAllCollisionPairs m
  forEach (addAllOuterBody k) (List.range m0.ngeoms) m0

/-- `GeometryModel::removeCollisionPair`. -/
def removeCollisionPair (k : PairEquality) (m : GeometryModel) (pair : CollisionPair) :
    Run GeometryModel Unit :=
  if ¬ pair.first < m.ngeoms then (.error .invalidArgument, m)
  else if ¬ pair.second < m.ngeoms then (.error .invalidArgument, m)
  else
    let it := m.collisionPairs.findIdx (fun p => CollisionPair.eqv k p pair)
    if it ≠ m.collisionPairs.length then
      (.ok (), { m with collisionPairs := m.collisionPairs.eraseIdx it })
    else (.ok (), m)

/-! ## GeometryData -/

/-- Body of the first loop of `fillInnerOuterObjectMaps` at `gid`. -/
def fillInnerBody (geomModel : GeometryModel) (gid : Nat) (d : GeometryData) :
    Run GeometryData Unit :=
  match geomModel.geometryObjects[gid]? with
  | none => (.error .outOfRange, d)
  | some o => (.ok (), { d with innerObjects := d.innerObjects.pushBack o.parentJoint gid })

/-- Body of the second loop of `fillInnerOuterObjectMaps` at `pair`. -/
def fillOuterBody (geomModel : GeometryModel) (pair : CollisionPair) (d : GeometryData) :
    Run GeometryData Unit :=
  match geomModel.geometryObjects[pair.first]? with
  | none => (.error .outOfRange, d)
  | some o =>
      (.ok (), { d with outerObjects := d.outerObjects.pushBack o.parentJoint pair.second })

/-- The `BOOST_FOREACH` over the collision pairs. -/
def fillOuterLoop (geomModel : GeometryModel) : List CollisionPair → GeometryData →
    Run GeometryData Unit
  | [], d => (.ok (), d)
  | pair :: rest, d =>
      match fillOuterBody geomModel pair d with
      | (.ok _, d1) => fillOuterLoop geomModel rest d1
      | (.error e, d1) => (.error e, d1)

/-- `GeometryData::fillInnerOuterObjectMaps`. -/
def fillInnerOuterObjectMaps (d : GeometryData) (geomModel : GeometryModel) :
    Run GeometryData Unit :=
  let d0 : GeometryData := { d with innerObjects := [], outerObjects := [] }
  match forEach (fillInnerBody geomModel) (List.range geomModel.geometryObjects.length) d0 with
  | (.error e, d1) => (.error e, d1)
  | (.ok _, d1) => fillOuterLoop geomModel geomModel.collisionPairs d1

/-- The members as the initialiser list of `GeometryData::GeometryData` and the
loop over the geometry objects leave them, before the maps are filled. -/
def GeometryData.init (geom_model : GeometryModel) : GeometryData :=
  { oMg := List.replicate geom_model.ngeoms default
    activeCollisionPairs := List.replicate geom_model.collisionPairs.length true
    distanceResults := List.replicate geom_model.collisionPairs.length default
    collisionResults := List.replicate geom_model.collisionPairs.length default
    radius := []
    collisionPairIndex := 0
    innerObjects := []
    outerObjects := []
    collisionObjects := geom_model.geometryObjects.map (fun o => ⟨o.geometry⟩) }

/-- `GeometryData::GeometryData(geom_model)`: no object exists when the body
fails. -/
def GeometryData.construct (geom_model : GeometryModel) : Except Error GeometryData :=
  match fillInnerOuterObjectMaps (GeometryData.init geom_model) geom_model with
  | (.ok _, d) => .ok d
  | (.error e, _) => .error e

/-- `GeometryData::activateCollisionPair`. -/
def activateCollisionPair (d : GeometryData) (pairId : Nat) : Run GeometryData Unit :=
  if ¬ pairId < d.activeCollisionPairs.length then (.error .invalidArgument, d)
  else (.ok (), { d with activeCollisionPairs := d.activeCollisionPairs.set pairId true })

/-- `GeometryData::deactivateCollisionPair`. -/
def deactivateCollisionPair (d : GeometryData) (pairId : Nat) : Run GeometryData Unit :=
  if ¬ pairId < d.activeCollisionPairs.length then (.error .invalidArgument, d)
  else (.ok (), { d with activeCollisionPairs := d.activeCollisionPairs.set pairId false })

/-! ## Test data -/

/-- Three geometries on the joints `[0, 0, 1]`, no pair declared. -/
def catalog001 : GeometryModel :=
  { ngeoms := 3
    geometryObjects := [⟨"a", 0, 0, 10⟩, ⟨"b", 0, 0, 11⟩, ⟨"c", 1, 1, 12⟩]
    collisionPairs := [] }

/-- Two geometries on the joints `[0, 1]` with the pair `(0, 1)` declared. -/
def catalog01 : GeometryModel :=
  { ngeoms := 2
    geometryObjects := [⟨"a", 0, 0, 10⟩, ⟨"b", 1, 1, 11⟩]
    collisionPairs := [⟨0, 1⟩] }

/-- Three objects, two of them named `"b"`. -/
def catalogNames : GeometryModel :=
  { ngeoms := 3
    geometryObjects := [⟨"a", 0, 0, 10⟩, ⟨"b", 0, 0, 11⟩, ⟨"b", 1, 1, 12⟩]
    collisionPairs := [] }

/-- The joints `[0, 0, 1]` catalog after `addAllCollisionPairs()`. -/
def catalog001Pairs : GeometryModel :=
  (addAllCollisionPairs .exact catalog001).2

/-- The runtime state constructed from `catalog001Pairs`. -/
def data001 : GeometryData :=
  match GeometryData.construct catalog001Pairs with
  | .ok d => d
  | .error _ => GeometryData.init catalog001Pairs

/-! ## Reference lists for `addAllCollisionPairs` -/

/-- Whether the object at `j` exists and sits on a joint other than `ji`. -/
def onOtherJoint (objs : List GeometryObject) (ji : Nat) (j : Nat) : Bool :=
  match objs[j]? with
  | some oj => decide (ji ≠ oj.parentJoint)
  | none => false

/-- The pairs `(i, j)`, `i < j < n`, with the object at `j` on another joint than
the object at `i`, by increasing `j`. -/
def rowPairs (n : Nat) (objs : List GeometryObject) (i : Nat) : List CollisionPair :=
  match objs[i]? with
  | none => []
  | some oi =>
      ((List.range' (i + 1) (n - (i + 1))).filter (onOtherJoint objs oi.parentJoint)).map
        (fun j => ⟨i, j⟩)

/-- The rows `i = 0, ..., n-1` one after the other. -/
def allPairs (n : Nat) (objs : List GeometryObject) : List CollisionPair :=
  (List.range' 0 n).flatMap (rowPairs n objs)

/-- Strict lexicographic order on `(first, second)`. -/
def CollisionPair.lexLt (p q : CollisionPair) : Prop :=
  p.first < q.first ∨ (p.first = q.first ∧ p.second < q.second)

/-- Every pair of `l` is increasing and lexicographically below `(i, j)`. -/
def PairsBelow (i j : Nat) (l : List CollisionPair) : Prop :=
  ∀ p ∈ l, p.first < p.second ∧ (p.first < i ∨ (p.first = i ∧ p.second < j))

/-! ## Reference definitions for `fillInnerOuterObjectMaps` -/

/-- Keys in strictly increasing order, as a `std::map` keeps them. -/
def JointMap.Sorted (mp : JointMap) : Prop :=
  (mp.map Prod.fst).Pairwise (fun a b => a < b)

/-- Whether the object at `g` exists and has parent joint `J`. -/
def hasJoint (objs : List GeometryObject) (g : Nat) (J : Nat) : Bool :=
  match objs[g]? with
  | some o => o.parentJoint == J
  | none => false

/-- One in-range iteration of the first loop, on the inner map alone. -/
def innerStep (objs : List GeometryObject) (mp : JointMap) (g : Nat) : JointMap :=
  match objs[g]? with
  | some o => mp.pushBack o.parentJoint g
  | none => mp

/-- One in-range iteration of the second loop, on the outer map alone. -/
def outerStep (objs : List GeometryObject) (mp : JointMap) (p : CollisionPair) : JointMap :=
  match objs[p.first]? with
  | some o => mp.pushBack o.parentJoint p.second
  | none => mp

/-- Both indices of every stored pair are below `ngeoms`. -/
def ValidPairs (m : GeometryModel) : Prop :=
  ∀ p ∈ m.collisionPairs, p.first < m.ngeoms ∧ p.second < m.ngeoms

/-- A kinematic model with the single frame `0`, attached to joint `0`. -/
def modelOneFrame : Model :=
  { nframes := 1, frames := [⟨0⟩] }

/-- An object declaring frame `0` and joint `0`. -/
def objectFrame0 : GeometryObject := ⟨"d", 0, 0, 13⟩

/-- An object declaring frame `0` and joint `3`, which is not the joint of frame `0`. -/
def objectWrongJoint : GeometryObject := ⟨"d", 0, 3, 13⟩

/-- An object declaring frame `5`, which `modelOneFrame` does not have, and joint `3`. -/
def objectNoFrame : GeometryObject := ⟨"d", 5, 3, 13⟩

/-- No two stored pairs compare equal: the sense of "no duplicates" that `std::find`
sees. Under `PairEquality.exact` this is `List.Nodup`. -/
def NoEqualPairs (k : PairEquality) (l : List CollisionPair) : Prop :=
  l.Pairwise (fun a b => CollisionPair.eqv k a b = false)

/-! ## Sequences of calls on a catalog -/

/-- The catalog a default-constructed `GeometryModel` is: no geometry, no pair. -/
def emptyCatalog : GeometryModel :=
  { ngeoms := 0, geometryObjects := [], collisionPairs := [] }

/-- One call of a catalog member function that changes the catalog. -/
inductive Call where
  | addGeometryObject (object : GeometryObject)
  | addGeometryObjectWithModel (object : GeometryObject) (model : Model)
  | addCollisionPair (pair : CollisionPair)
  | addAllCollisionPairs
  | removeCollisionPair (pair : CollisionPair)
  | removeAllCollisionPairs
  deriving DecidableEq, Repr

/-- The outcome of a call with its return value dropped. -/
def dropValue {σ α : Type} : Run σ α → Run σ Unit
  | (.ok _, s) => (.ok (), s)
  | (.error e, s) => (.error e, s)

/-- Outcome of the call and the catalog it leaves. -/
def Call.run (k : PairEquality) (m : GeometryModel) : Call → Run GeometryModel Unit
  | .addGeometryObject object => dropValue (Pinocchio.addGeometryObject m object)
  | .addGeometryObjectWithModel object model =>
      dropValue (Pinocchio.addGeometryObjectWithModel m object model)
  | .addCollisionPair pair => Pinocchio.addCollisionPair k m pair
  | .addAllCollisionPairs => Pinocchio.addAllCollisionPairs k m
  | .removeCollisionPair pair => Pinocchio.removeCollisionPair k m pair
  | .removeAllCollisionPairs => (.ok (), Pinocchio.removeAllCollisionPairs m)

/-- The calls `cs` one after the other from `m`. A call that throws leaves its
catalog to the next call; a call that reads past the end of a vector has no
defined continuation and ends the run without a catalog. -/
def runCalls (k : PairEquality) : List Call → GeometryModel → Option GeometryModel
  | [], m => some m
  | c :: cs, m =>
      if (Call.run k m c).1 = .error .outOfRange then none
      else runCalls k cs (Call.run k m c).2

/-- Whether the frame a call names is stored in the kinematic model it passes;
true of the calls that pass no model. -/
def Call.frameInRange : Call → Bool
  | .addGeometryObjectWithModel object model => decide (object.parentFrame < model.frames.length)
  | _ => true

/-- The invariant of the catalog: `ngeoms` counts the stored objects, no two stored
pairs compare equal, every stored pair has both indices below `ngeoms`. -/
def CatalogInvariant (k : PairEquality) (m : GeometryModel) : Prop :=
  m.ngeoms = m.geometryObjects.length ∧ NoEqualPairs k m.collisionPairs ∧ ValidPairs m

/-- A sequence of calls with failing ones among them. -/
def sampleCalls : List Call :=
  [ .addCollisionPair ⟨0, 1⟩,
    .addGeometryObject ⟨"a", 0, 0, 10⟩,
    .addGeometryObjectWithModel objectWrongJoint modelOneFrame,
    .addGeometryObjectWithModel objectFrame0 modelOneFrame,
    .addGeometryObject ⟨"c", 1, 1, 12⟩,
    .addAllCollisionPairs,
    .addCollisionPair ⟨2, 0⟩,
    .addCollisionPair ⟨0, 2⟩,
    .addCollisionPair ⟨0, 3⟩,
    .removeCollisionPair ⟨1, 2⟩,
    .removeCollisionPair ⟨5, 0⟩,
    .addCollisionPair ⟨1, 0⟩ ]

/-- The lengths of the vectors stored in a joint map, added up. -/
def JointMap.total (mp : JointMap) : Nat :=
  (mp.map (fun e => e.2.length)).sum

/-! # Properties -/

/-! ## Scans -/

theorem findIdx_le_of_getElem? {α : Type} (p : α → Bool) (l : List α) (j : Nat) (x : α)
    (hx : l[j]? = some x) (hp : p x = true) : l.findIdx p ≤ j := by
  by_contra hlt
  have hlt2 : j < l.findIdx p := Nat.lt_of_not_le hlt
  have hfalse := List.not_of_lt_findIdx hlt2
  have hj : j < l.length := Nat.lt_of_lt_of_le hlt2 (List.findIdx_le_length p)
  rw [List.getElem?_eq_getElem hj] at hx
  cases hx
  rw [hp] at hfalse
  cases hfalse

theorem findIdx_getElem?_of_lt {α : Type} (p : α → Bool) (l : List α)
    (h : l.findIdx p < l.length) : ∃ x, l[l.findIdx p]? = some x ∧ p x = true :=
  ⟨l[l.findIdx p], List.getElem?_eq_getElem h, List.findIdx_getElem⟩

theorem findIdx_bne_length {α : Type} (p : α → Bool) (l : List α) :
    (l.findIdx p != l.length) = true ↔ l.findIdx p < l.length := by
  have hle : l.findIdx p ≤ l.length := List.findIdx_le_length p
  simp only [bne_iff_ne, ne_eq]
  omega

/-! ## Pair comparison -/

theorem eqv_refl (k : PairEquality) (p : CollisionPair) : CollisionPair.eqv k p p = true := by
  cases k <;> simp [CollisionPair.eqv]

theorem eqv_exact_iff (p q : CollisionPair) : CollisionPair.eqv .exact p q = true ↔ p = q := by
  cases p; cases q; simp [CollisionPair.eqv]

theorem eqv_symmetric_iff (p q : CollisionPair) :
    CollisionPair.eqv .symmetric p q = true ↔ p = q ∨ p = ⟨q.second, q.first⟩ := by
  cases p; cases q; simp [CollisionPair.eqv]

theorem eqv_sound (k : PairEquality) (p q : CollisionPair) (h : CollisionPair.eqv k p q = true) :
    p = q ∨ p = ⟨q.second, q.first⟩ := by
  cases k
  · exact Or.inl ((eqv_exact_iff p q).1 h)
  · exact (eqv_symmetric_iff p q).1 h

theorem existCollisionPair_iff (k : PairEquality) (m : GeometryModel) (pair : CollisionPair) :
    existCollisionPair k m pair = true ↔
      ∃ p ∈ m.collisionPairs, CollisionPair.eqv k p pair = true := by
  unfold existCollisionPair
  rw [findIdx_bne_length, List.findIdx_lt_length]

theorem existCollisionPair_false_iff (k : PairEquality) (m : GeometryModel)
    (pair : CollisionPair) :
    existCollisionPair k m pair = false ↔
      ∀ p ∈ m.collisionPairs, CollisionPair.eqv k p pair = false := by
  rw [← Bool.not_eq_true, existCollisionPair_iff]
  simp

theorem existCollisionPair_eq_find (k : PairEquality) (m : GeometryModel) (pair : CollisionPair) :
    existCollisionPair k m pair = true ↔
      findCollisionPair k m pair < m.collisionPairs.length := by
  unfold existCollisionPair findCollisionPair
  exact findIdx_bne_length _ _

/-! ## addCollisionPair -/

theorem addCollisionPair_of_invalid (k : PairEquality) (m : GeometryModel) (pair : CollisionPair)
    (h : m.ngeoms ≤ pair.first ∨ m.ngeoms ≤ pair.second) :
    addCollisionPair k m pair = (.error .invalidArgument, m) := by
  unfold addCollisionPair
  by_cases h1 : pair.first < m.ngeoms
  · have h2 : ¬ pair.second < m.ngeoms := by omega
    simp [h1, h2]
  · simp [h1]

theorem addCollisionPair_of_exist (k : PairEquality) (m : GeometryModel) (pair : CollisionPair)
    (h1 : pair.first < m.ngeoms) (h2 : pair.second < m.ngeoms)
    (he : existCollisionPair k m pair = true) :
    addCollisionPair k m pair = (.ok (), m) := by
  simp [addCollisionPair, h1, h2, he]

theorem addCollisionPair_of_not_exist (k : PairEquality) (m : GeometryModel)
    (pair : CollisionPair) (h1 : pair.first < m.ngeoms) (h2 : pair.second < m.ngeoms)
    (he : existCollisionPair k m pair = false) :
    addCollisionPair k m pair
      = (.ok (), { m with collisionPairs := m.collisionPairs ++ [pair] }) := by
  simp [addCollisionPair, h1, h2, he]

theorem existCollisionPair_append_self (k : PairEquality) (m : GeometryModel)
    (pair : CollisionPair) :
    existCollisionPair k { m with collisionPairs := m.collisionPairs ++ [pair] } pair = true := by
  rw [existCollisionPair_iff]
  exact ⟨pair, by simp, eqv_refl k pair⟩

theorem countP_eqv_eq_zero (k : PairEquality) (m : GeometryModel) (pair : CollisionPair)
    (he : existCollisionPair k m pair = false) :
    m.collisionPairs.countP (fun p => CollisionPair.eqv k p pair) = 0 := by
  rw [List.countP_eq_zero]
  intro p hp
  simp [(existCollisionPair_false_iff k m pair).1 he p hp]

theorem findCollisionPair_append_of_exist (k : PairEquality) (m : GeometryModel)
    (pair q : CollisionPair) (hq : existCollisionPair k m q = true) :
    findCollisionPair k { m with collisionPairs := m.collisionPairs ++ [pair] } q
      = findCollisionPair k m q := by
  have hlt := (existCollisionPair_eq_find k m q).1 hq
  unfold findCollisionPair at hlt ⊢
  simp only [List.findIdx_append, hlt, if_true]

theorem findCollisionPair_append_self (k : PairEquality) (m : GeometryModel)
    (pair : CollisionPair) (he : existCollisionPair k m pair = false) :
    findCollisionPair k { m with collisionPairs := m.collisionPairs ++ [pair] } pair
      = m.collisionPairs.length := by
  have hall := (existCollisionPair_false_iff k m pair).1 he
  have hlen : m.collisionPairs.findIdx (fun p => CollisionPair.eqv k p pair)
      = m.collisionPairs.length := List.findIdx_eq_length.2 hall
  unfold findCollisionPair
  simp [List.findIdx_append, hlen, List.findIdx_cons, eqv_refl]

/-! ## Lookup and existence agree -/

/-- C7: `existCollisionPair(pair)` holds exactly when `findCollisionPair(pair)` is
below the pair count; then the index found holds a pair that compares equal to
`pair` and no smaller index does; when `existCollisionPair(pair)` does not hold,
`findCollisionPair(pair)` is the pair count. -/
theorem findCollisionPair_agrees_with_exist (k : PairEquality) (m : GeometryModel)
    (pair : CollisionPair) :
    (existCollisionPair k m pair = true ↔
        findCollisionPair k m pair < m.collisionPairs.length) ∧
      (existCollisionPair k m pair = true →
        (∃ q, m.collisionPairs[findCollisionPair k m pair]? = some q ∧
            CollisionPair.eqv k q pair = true) ∧
          ∀ (j : Nat) (q : CollisionPair), m.collisionPairs[j]? = some q → CollisionPair.eqv k q pair = true →
            findCollisionPair k m pair ≤ j) ∧
      (existCollisionPair k m pair = false →
        findCollisionPair k m pair = m.collisionPairs.length) := by
  refine ⟨existCollisionPair_eq_find k m pair, ?_, ?_⟩
  · intro he
    have hlt := (existCollisionPair_eq_find k m pair).1 he
    refine ⟨findIdx_getElem?_of_lt _ _ hlt, ?_⟩
    intro j q hj hq
    exact findIdx_le_of_getElem? _ _ j q hj hq
  · intro he
    exact List.findIdx_eq_length.2 ((existCollisionPair_false_iff k m pair).1 he)

/-- Evaluation of C7 on the catalog `[(0,1)]`: the stored pair is found at index
`0`, an absent pair at the pair count `1`. -/
theorem findCollisionPair_agrees_with_exist_witness :
    (existCollisionPair .exact catalog01 ⟨0, 1⟩ = true ∧
        findCollisionPair .exact catalog01 ⟨0, 1⟩ = 0) ∧
      (existCollisionPair .exact catalog01 ⟨1, 1⟩ = false ∧
        findCollisionPair .exact catalog01 ⟨1, 1⟩ = 1) := by
  have h := findCollisionPair_agrees_with_exist .exact catalog01 ⟨1, 1⟩
  have he : existCollisionPair .exact catalog01 ⟨1, 1⟩ = false := by decide
  exact ⟨⟨by decide, by decide⟩, he, h.2.2 he⟩

/-- C8: `existGeometryName(name)` holds exactly when `getGeometryId(name)` is below
the number of geometry objects, which is exactly when some object has that name;
then the index returned holds an object of that name and no smaller index does;
when no object has the name, `getGeometryId(name)` is the number of objects. -/
theorem getGeometryId_agrees_with_exist (m : GeometryModel) (name : String) :
    (existGeometryName m name = true ↔ getGeometryId m name < m.geometryObjects.length) ∧
      (existGeometryName m name = true ↔ ∃ o ∈ m.geometryObjects, o.name = name) ∧
      (existGeometryName m name = true →
        (∃ o, m.geometryObjects[getGeometryId m name]? = some o ∧ o.name = name) ∧
          ∀ (j : Nat) (o : GeometryObject), m.geometryObjects[j]? = some o → o.name = name → getGeometryId m name ≤ j) ∧
      ((∀ o ∈ m.geometryObjects, o.name ≠ name) →
        existGeometryName m name = false ∧
          getGeometryId m name = m.geometryObjects.length) := by
  have hiff : existGeometryName m name = true ↔
      getGeometryId m name < m.geometryObjects.length := by
    unfold existGeometryName getGeometryId
    exact findIdx_bne_length _ _
  have hex : existGeometryName m name = true ↔ ∃ o ∈ m.geometryObjects, o.name = name := by
    rw [hiff]
    unfold getGeometryId
    rw [List.findIdx_lt_length]
    simp
  refine ⟨hiff, hex, ?_, ?_⟩
  · intro he
    have hlt := hiff.1 he
    unfold getGeometryId at hlt ⊢
    obtain ⟨o, ho, hp⟩ := findIdx_getElem?_of_lt _ _ hlt
    refine ⟨⟨o, ho, by simpa using hp⟩, ?_⟩
    intro j o2 hj hn
    exact findIdx_le_of_getElem? _ _ j o2 hj (by simpa using hn)
  · intro hno
    have hlen : getGeometryId m name = m.geometryObjects.length := by
      unfold getGeometryId
      rw [List.findIdx_eq_length]
      intro o ho
      simpa using hno o ho
    refine ⟨?_, hlen⟩
    rw [← Bool.not_eq_true, hiff, hlen]
    exact Nat.lt_irrefl _

/-- Evaluation of C8 on a catalog holding the names `a, b, b`: `"b"` is found at
its first position `1`, the absent `"z"` at the number of objects `3`. -/
theorem getGeometryId_agrees_with_exist_witness :
    (existGeometryName catalogNames "b" = true ∧ getGeometryId catalogNames "b" = 1) ∧
      (existGeometryName catalogNames "z" = false ∧ getGeometryId catalogNames "z" = 3) :=
  ⟨⟨by decide, by decide⟩,
    (getGeometryId_agrees_with_exist catalogNames "z").2.2.2 (by decide)⟩

/-! ## addCollisionPair: failure, idempotence, append -/

/-- C3: `addCollisionPair(pair)` fails, and then with InvalidArgument, exactly when
`pair.first >= ngeoms` or `pair.second >= ngeoms`; a failing call leaves the whole
catalog as it was. -/
theorem addCollisionPair_fails_iff (k : PairEquality) (m : GeometryModel)
    (pair : CollisionPair) :
    ((addCollisionPair k m pair).1 = .error .invalidArgument ↔
        (m.ngeoms ≤ pair.first ∨ m.ngeoms ≤ pair.second)) ∧
      ((∃ e, (addCollisionPair k m pair).1 = .error e) ↔
        (m.ngeoms ≤ pair.first ∨ m.ngeoms ≤ pair.second)) ∧
      ((∃ e, (addCollisionPair k m pair).1 = .error e) → (addCollisionPair k m pair).2 = m) := by
  by_cases h : m.ngeoms ≤ pair.first ∨ m.ngeoms ≤ pair.second
  · rw [addCollisionPair_of_invalid k m pair h]
    simp [h]
  · have h1 : pair.first < m.ngeoms := by omega
    have h2 : pair.second < m.ngeoms := by omega
    cases he : existCollisionPair k m pair
    · rw [addCollisionPair_of_not_exist k m pair h1 h2 he]
      simp [h]
    · rw [addCollisionPair_of_exist k m pair h1 h2 he]
      simp [h]

/-- Evaluation of C3: on a catalog of three geometries `addCollisionPair((3,0))`
fails with InvalidArgument and returns the catalog as it was. -/
theorem addCollisionPair_fails_iff_witness :
    addCollisionPair .exact catalog001 ⟨3, 0⟩ = (.error .invalidArgument, catalog001) ∧
      (addCollisionPair .exact catalog001 ⟨3, 0⟩).1 = .error .invalidArgument :=
  ⟨by decide, (addCollisionPair_fails_iff .exact catalog001 ⟨3, 0⟩).1.2 (by decide)⟩

/-- C4: with both indices valid, `addCollisionPair(pair)` succeeds, a second call
with the same pair changes nothing, the pair is then present, and the stored pairs
that compare equal to it number exactly one whenever they numbered at most one
before. -/
theorem addCollisionPair_idempotent (k : PairEquality) (m : GeometryModel)
    (pair : CollisionPair) (h1 : pair.first < m.ngeoms) (h2 : pair.second < m.ngeoms) :
    (addCollisionPair k m pair).1 = .ok () ∧
      addCollisionPair k (addCollisionPair k m pair).2 pair
        = (.ok (), (addCollisionPair k m pair).2) ∧
      existCollisionPair k (addCollisionPair k m pair).2 pair = true ∧
      (m.collisionPairs.countP (fun p => CollisionPair.eqv k p pair) ≤ 1 →
        (addCollisionPair k m pair).2.collisionPairs.countP
          (fun p => CollisionPair.eqv k p pair) = 1) := by
  cases he : existCollisionPair k m pair
  · rw [addCollisionPair_of_not_exist k m pair h1 h2 he]
    refine ⟨rfl, ?_, existCollisionPair_append_self k m pair, ?_⟩
    · exact addCollisionPair_of_exist k _ pair h1 h2 (existCollisionPair_append_self k m pair)
    · intro _
      simp [List.countP_append, countP_eqv_eq_zero k m pair he, eqv_refl]
  · rw [addCollisionPair_of_exist k m pair h1 h2 he]
    refine ⟨rfl, addCollisionPair_of_exist k m pair h1 h2 he, he, ?_⟩
    intro hle
    obtain ⟨p, hp, hpe⟩ := (existCollisionPair_iff k m pair).1 he
    have hpos : 0 < m.collisionPairs.countP (fun p => CollisionPair.eqv k p pair) :=
      List.countP_pos_iff.2 ⟨p, hp, hpe⟩
    show m.collisionPairs.countP (fun p => CollisionPair.eqv k p pair) = 1
    omega

/-- Evaluation of C4: adding `(1,2)` twice to the three-geometry catalog stores it
once. -/
theorem addCollisionPair_idempotent_witness :
    ((1 : Nat) < catalog001.ngeoms ∧ (2 : Nat) < catalog001.ngeoms) ∧
      (addCollisionPair .exact (addCollisionPair .exact catalog001 ⟨1, 2⟩).2 ⟨1, 2⟩).2.collisionPairs
        = [⟨1, 2⟩] ∧
      addCollisionPair .exact (addCollisionPair .exact catalog001 ⟨1, 2⟩).2 ⟨1, 2⟩
        = (.ok (), (addCollisionPair .exact catalog001 ⟨1, 2⟩).2) :=
  ⟨⟨by decide, by decide⟩, by decide,
    (addCollisionPair_idempotent .exact catalog001 ⟨1, 2⟩ (by decide) (by decide)).2.1⟩

/-- C6: with both indices valid and the pair not yet present, `addCollisionPair`
succeeds and puts the pair at the end: the pair count grows by one,
`findCollisionPair(pair)` is the previous pair count, every index keeps its pair,
`findCollisionPair` is unchanged for every pair that was present, and the geometry
list and count are unchanged. -/
theorem addCollisionPair_appends (k : PairEquality) (m : GeometryModel) (pair : CollisionPair)
    (h1 : pair.first < m.ngeoms) (h2 : pair.second < m.ngeoms)
    (he : existCollisionPair k m pair = false) :
    (addCollisionPair k m pair).1 = .ok () ∧
      (addCollisionPair k m pair).2.collisionPairs = m.collisionPairs ++ [pair] ∧
      (addCollisionPair k m pair).2.collisionPairs.length = m.collisionPairs.length + 1 ∧
      findCollisionPair k (addCollisionPair k m pair).2 pair = m.collisionPairs.length ∧
      (∀ (j : Nat) (q : CollisionPair), m.collisionPairs[j]? = some q →
        (addCollisionPair k m pair).2.collisionPairs[j]? = some q) ∧
      (∀ q, existCollisionPair k m q = true →
        findCollisionPair k (addCollisionPair k m pair).2 q = findCollisionPair k m q) ∧
      (addCollisionPair k m pair).2.geometryObjects = m.geometryObjects ∧
      (addCollisionPair k m pair).2.ngeoms = m.ngeoms := by
  rw [addCollisionPair_of_not_exist k m pair h1 h2 he]
  refine ⟨rfl, rfl, by simp, findCollisionPair_append_self k m pair he, ?_, ?_, rfl, rfl⟩
  · intro j q hj
    have hlt : j < m.collisionPairs.length := by
      by_contra hge
      rw [List.getElem?_eq_none (Nat.le_of_not_lt hge)] at hj
      cases hj
    show (m.collisionPairs ++ [pair])[j]? = some q
    rw [List.getElem?_append_left hlt]
    exact hj
  · intro q hq
    exact findCollisionPair_append_of_exist k m pair q hq

/-- Evaluation of C6: `(0,2)` added to the catalog holding `[(0,1)]` (given a third
geometry) lands at index `1`. -/
theorem addCollisionPair_appends_witness :
    existCollisionPair .exact { catalog001 with collisionPairs := [⟨0, 1⟩] } ⟨0, 2⟩ = false ∧
      (addCollisionPair .exact { catalog001 with collisionPairs := [⟨0, 1⟩] } ⟨0, 2⟩).2.collisionPairs
        = [⟨0, 1⟩, ⟨0, 2⟩] ∧
      findCollisionPair .exact
        (addCollisionPair .exact { catalog001 with collisionPairs := [⟨0, 1⟩] } ⟨0, 2⟩).2 ⟨0, 2⟩
        = 1 :=
  ⟨by decide, by decide,
    (addCollisionPair_appends .exact { catalog001 with collisionPairs := [⟨0, 1⟩] } ⟨0, 2⟩
      (by decide) (by decide) (by decide)).2.2.2.1⟩

/-! ## addAllCollisionPairs -/

theorem forEach_cons_ok {σ : Type} (body : Nat → σ → Run σ Unit) (x : Nat) (xs : List Nat)
    (s s1 : σ) (h : body x s = (.ok (), s1)) :
    forEach body (x :: xs) s = forEach body xs s1 := by
  simp [forEach, h]

theorem existCollisionPair_of_below (k : PairEquality) (m : GeometryModel) (i j : Nat)
    (hij : i < j) (h : PairsBelow i j m.collisionPairs) :
    existCollisionPair k m ⟨i, j⟩ = false := by
  rw [existCollisionPair_false_iff]
  intro p hp
  have hb := h p hp
  cases hv : CollisionPair.eqv k p ⟨i, j⟩
  · rfl
  · exfalso
    rcases eqv_sound k p ⟨i, j⟩ hv with h1 | h1
    · rw [h1] at hb
      simp at hb
    · rw [h1] at hb
      simp at hb
      omega

theorem forEach_addAllInner (k : PairEquality) (i ji : Nat) (len : Nat) :
    ∀ (j : Nat) (m : GeometryModel), i < j → j + len ≤ m.ngeoms →
      m.ngeoms ≤ m.geometryObjects.length → PairsBelow i j m.collisionPairs →
      forEach (addAllInnerBody k i ji) (List.range' j len) m
        = (.ok (),
            { m with
              collisionPairs := m.collisionPairs ++
                ((List.range' j len).filter (onOtherJoint m.geometryObjects ji)).map
                  (fun j => ⟨i, j⟩) }) := by
  induction len with
  | zero =>
    intro j m _ _ _ _
    simp [forEach]
  | succ len ih =>
    intro j m hij hlen hwf hbelow
    have hj : j < m.geometryObjects.length := by omega
    rw [List.range'_succ]
    by_cases hd : ji = (m.geometryObjects[j]).parentJoint
    · have hbody : addAllInnerBody k i ji j m = (.ok (), m) := by
        simp [addAllInnerBody, List.getElem?_eq_getElem hj, hd]
      rw [forEach_cons_ok _ _ _ _ _ hbody]
      have hbelow2 : PairsBelow i (j + 1) m.collisionPairs := by
        intro p hp
        have := hbelow p hp
        omega
      rw [ih (j + 1) m (by omega) (by omega) hwf hbelow2]
      simp [List.filter_cons, onOtherJoint, List.getElem?_eq_getElem hj, hd]
    · have hne : existCollisionPair k m ⟨i, j⟩ = false :=
        existCollisionPair_of_below k m i j hij hbelow
      have hbody : addAllInnerBody k i ji j m
          = (.ok (), { m with collisionPairs := m.collisionPairs ++ [⟨i, j⟩] }) := by
        simp only [addAllInnerBody, List.getElem?_eq_getElem hj, ne_eq, hd, not_false_eq_true,
          if_true]
        exact addCollisionPair_of_not_exist k m ⟨i, j⟩ (by show i < m.ngeoms; omega)
          (by show j < m.ngeoms; omega) hne
      rw [forEach_cons_ok _ _ _ _ _ hbody]
      have hbelow2 : PairsBelow i (j + 1) (m.collisionPairs ++ [⟨i, j⟩]) := by
        intro p hp
        rcases List.mem_append.1 hp with hp | hp
        · have := hbelow p hp
          omega
        · simp at hp
          rw [hp]
          simp
          omega
      rw [ih (j + 1) { m with collisionPairs := m.collisionPairs ++ [⟨i, j⟩] } (by omega)
        (by show j + 1 + len ≤ m.ngeoms; omega) hwf hbelow2]
      simp [List.filter_cons, onOtherJoint, List.getElem?_eq_getElem hj, hd]

theorem forEach_addAllOuter (k : PairEquality) (len : Nat) :
    ∀ (i : Nat) (m : GeometryModel), i + len ≤ m.ngeoms →
      m.ngeoms ≤ m.geometryObjects.length → PairsBelow i (i + 1) m.collisionPairs →
      forEach (addAllOuterBody k) (List.range' i len) m
        = (.ok (),
            { m with
              collisionPairs := m.collisionPairs ++
                (List.range' i len).flatMap (rowPairs m.ngeoms m.geometryObjects) }) := by
  induction len with
  | zero =>
    intro i m _ _ _
    simp [forEach]
  | succ len ih =>
    intro i m hlen hwf hbelow
    have hi : i < m.geometryObjects.length := by omega
    rw [List.range'_succ]
    have hbody : addAllOuterBody k i m
        = (.ok (),
            { m with
              collisionPairs := m.collisionPairs ++ rowPairs m.ngeoms m.geometryObjects i }) := by
      simp only [addAllOuterBody, rowPairs, List.getElem?_eq_getElem hi]
      exact forEach_addAllInner k i _ _ (i + 1) m (by omega) (by omega) hwf hbelow
    rw [forEach_cons_ok _ _ _ _ _ hbody]
    have hbelow2 : PairsBelow (i + 1) (i + 1 + 1)
        (m.collisionPairs ++ rowPairs m.ngeoms m.geometryObjects i) := by
      intro p hp
      rcases List.mem_append.1 hp with hp | hp
      · have := hbelow p hp
        omega
      · simp only [rowPairs, List.getElem?_eq_getElem hi, List.mem_map, List.mem_filter,
          List.mem_range'_1] at hp
        obtain ⟨j, ⟨hj, _⟩, rfl⟩ := hp
        simp
        omega
    rw [ih (i + 1) { m with
        collisionPairs := m.collisionPairs ++ rowPairs m.ngeoms m.geometryObjects i }
      (by show i + 1 + len ≤ m.ngeoms; omega) hwf hbelow2]
    simp [List.flatMap_cons]

theorem addAllCollisionPairs_eq (k : PairEquality) (m : GeometryModel)
    (hwf : m.ngeoms ≤ m.geometryObjects.length) :
    addAllCollisionPairs k m
      = (.ok (), { m with collisionPairs := allPairs m.ngeoms m.geometryObjects }) := by
  unfold addAllCollisionPairs removeAllCollisionPairs
  simp only [List.range_eq_range']
  have h := forEach_addAllOuter k m.ngeoms 0 { m with collisionPairs := [] }
    (by simp) hwf (by intro p hp; cases hp)
  rw [h]
  simp [allPairs]

theorem mem_rowPairs (n : Nat) (objs : List GeometryObject) (i : Nat) (p : CollisionPair) :
    p ∈ rowPairs n objs i ↔
      p.first = i ∧ i < p.second ∧ p.second < n ∧
        ∃ oi oj, objs[i]? = some oi ∧ objs[p.second]? = some oj ∧
          oi.parentJoint ≠ oj.parentJoint := by
  unfold rowPairs
  cases hoi : objs[i]? with
  | none => simp
  | some oi =>
    simp only [List.mem_map, List.mem_filter, List.mem_range'_1, onOtherJoint]
    constructor
    · rintro ⟨j, ⟨hj, hd⟩, rfl⟩
      cases hoj : objs[j]? with
      | none => simp [hoj] at hd
      | some oj =>
        simp only [hoj, decide_eq_true_eq] at hd
        exact ⟨rfl, show i < j by omega, show j < n by omega, oi, oj, rfl, rfl, hd⟩
    · rintro ⟨hf, hlt, hn, oi2, oj, hoi2, hoj, hd⟩
      cases hoi2
      refine ⟨p.second, ⟨by omega, by simp [hoj, hd]⟩, ?_⟩
      cases p
      simp at hf
      simp [hf]

theorem mem_allPairs (n : Nat) (objs : List GeometryObject) (p : CollisionPair) :
    p ∈ allPairs n objs ↔
      p.first < p.second ∧ p.second < n ∧
        ∃ oi oj, objs[p.first]? = some oi ∧ objs[p.second]? = some oj ∧
          oi.parentJoint ≠ oj.parentJoint := by
  unfold allPairs
  simp only [List.mem_flatMap, List.mem_range'_1, mem_rowPairs]
  constructor
  · rintro ⟨i, _, hf, hlt, hn, h⟩
    subst hf
    exact ⟨hlt, hn, h⟩
  · rintro ⟨hlt, hn, h⟩
    exact ⟨p.first, by omega, rfl, hlt, hn, h⟩

theorem allPairs_pairwise (n : Nat) (objs : List GeometryObject) :
    (allPairs n objs).Pairwise CollisionPair.lexLt := by
  unfold allPairs
  rw [List.pairwise_flatMap]
  constructor
  · intro i _
    unfold rowPairs
    cases objs[i]? with
    | none => exact List.Pairwise.nil
    | some oi =>
      simp only
      rw [List.pairwise_map]
      apply List.Pairwise.filter
      exact (List.pairwise_lt_range' (i + 1) (n - (i + 1))).imp
        (fun h => Or.inr ⟨rfl, h⟩)
  · exact (List.pairwise_lt_range' 0 n).imp (fun {a b} h x hx y hy => by
      rw [mem_rowPairs] at hx hy
      exact Or.inl (by omega))

theorem lexLt_ne (p q : CollisionPair) (h : CollisionPair.lexLt p q) : p ≠ q := by
  intro he
  subst he
  unfold CollisionPair.lexLt at h
  omega

/-- C2: when `ngeoms` does not exceed the number of stored objects,
`addAllCollisionPairs()` succeeds, changes the pair list only, and the new pair list
`L` holds exactly the pairs `(i,j)` with `i < j < ngeoms` whose objects sit on
different parent joints, without repetition and in strictly increasing
lexicographic order, whatever pairs were stored before. -/
theorem addAllCollisionPairs_exact_list (k : PairEquality) (m : GeometryModel)
    (hwf : m.ngeoms ≤ m.geometryObjects.length) :
    ∃ L : List CollisionPair,
      addAllCollisionPairs k m = (.ok (), { m with collisionPairs := L }) ∧
        (∀ p : CollisionPair, p ∈ L ↔
          p.first < p.second ∧ p.second < m.ngeoms ∧
            ∃ oi oj, m.geometryObjects[p.first]? = some oi ∧
              m.geometryObjects[p.second]? = some oj ∧ oi.parentJoint ≠ oj.parentJoint) ∧
        L.Nodup ∧ L.Pairwise CollisionPair.lexLt :=
  ⟨allPairs m.ngeoms m.geometryObjects, addAllCollisionPairs_eq k m hwf,
    mem_allPairs m.ngeoms m.geometryObjects,
    (allPairs_pairwise m.ngeoms m.geometryObjects).imp (fun {a b} h => lexLt_ne a b h),
    allPairs_pairwise m.ngeoms m.geometryObjects⟩

/-- Evaluation of C2: three geometries on the joints `[0,0,1]`, with a stale pair
`(0,1)` stored beforehand, give exactly `[(0,2),(1,2)]`. -/
theorem addAllCollisionPairs_exact_list_witness :
    addAllCollisionPairs .exact { catalog001 with collisionPairs := [⟨0, 1⟩] }
        = (.ok (), { catalog001 with collisionPairs := [⟨0, 2⟩, ⟨1, 2⟩] }) ∧
      addAllCollisionPairs .symmetric { catalog001 with collisionPairs := [⟨0, 1⟩] }
        = (.ok (), { catalog001 with collisionPairs := [⟨0, 2⟩, ⟨1, 2⟩] }) ∧
      ∃ L : List CollisionPair,
        addAllCollisionPairs .exact catalog001
            = (.ok (), { catalog001 with collisionPairs := L }) ∧
          (∀ p : CollisionPair, p ∈ L ↔
            p.first < p.second ∧ p.second < catalog001.ngeoms ∧
              ∃ oi oj, catalog001.geometryObjects[p.first]? = some oi ∧
                catalog001.geometryObjects[p.second]? = some oj ∧
                oi.parentJoint ≠ oj.parentJoint) ∧
          L.Nodup ∧ L.Pairwise CollisionPair.lexLt :=
  ⟨by decide, by decide, addAllCollisionPairs_exact_list .exact catalog001 (by decide)⟩

theorem existCollisionPair_addAll_iff (k : PairEquality) (m : GeometryModel)
    (hwf : m.ngeoms ≤ m.geometryObjects.length) (pair : CollisionPair) :
    existCollisionPair k (addAllCollisionPairs k m).2 pair = true ↔
      ∃ p ∈ allPairs m.ngeoms m.geometryObjects, CollisionPair.eqv k p pair = true := by
  rw [addAllCollisionPairs_eq k m hwf, existCollisionPair_iff]

/-- Presence after `addAllCollisionPairs()` under either pair comparison, for valid
`i`, `j`: on different joints with `i < j` the pair `(i,j)` is found; on different
joints with `j < i` it is found exactly when the comparison accepts a reversed
pair; on the same joint it is not found. -/
theorem existCollisionPair_after_addAll (k : PairEquality) (m : GeometryModel)
    (hwf : m.ngeoms ≤ m.geometryObjects.length) (i j : Nat)
    (hi : i < m.ngeoms) (hj : j < m.ngeoms) (oi oj : GeometryObject)
    (hoi : m.geometryObjects[i]? = some oi) (hoj : m.geometryObjects[j]? = some oj) :
    (oi.parentJoint ≠ oj.parentJoint → i < j →
        existCollisionPair k (addAllCollisionPairs k m).2 ⟨i, j⟩ = true) ∧
      (oi.parentJoint ≠ oj.parentJoint → j < i →
        (existCollisionPair k (addAllCollisionPairs k m).2 ⟨i, j⟩ = true ↔
          k = .symmetric)) ∧
      (oi.parentJoint = oj.parentJoint →
        existCollisionPair k (addAllCollisionPairs k m).2 ⟨i, j⟩ = false) := by
  refine ⟨?_, ?_, ?_⟩
  · intro hd hlt
    rw [existCollisionPair_addAll_iff k m hwf]
    exact ⟨⟨i, j⟩, (mem_allPairs _ _ _).2 ⟨hlt, hj, oi, oj, hoi, hoj, hd⟩, eqv_refl k _⟩
  · intro hd hlt
    rw [existCollisionPair_addAll_iff k m hwf]
    constructor
    · rintro ⟨p, hp, hv⟩
      cases k with
      | symmetric => rfl
      | exact =>
        exfalso
        rw [eqv_exact_iff] at hv
        subst hv
        have := ((mem_allPairs _ _ _).1 hp).1
        simp at this
        omega
    · intro hk
      subst hk
      refine ⟨⟨j, i⟩, (mem_allPairs _ _ _).2 ⟨hlt, hi, oj, oi, hoj, hoi, Ne.symm hd⟩, ?_⟩
      simp [CollisionPair.eqv]
  · intro hsame
    rw [← Bool.not_eq_true, existCollisionPair_addAll_iff k m hwf]
    rintro ⟨p, hp, hv⟩
    obtain ⟨_, _, pi, pj, hpi, hpj, hd⟩ := (mem_allPairs _ _ _).1 hp
    rcases eqv_sound k p ⟨i, j⟩ hv with h | h
    · subst h
      rw [hoi] at hpi
      rw [hoj] at hpj
      cases hpi
      cases hpj
      exact hd hsame
    · subst h
      rw [hoj] at hpi
      rw [hoi] at hpj
      cases hpi
      cases hpj
      exact hd hsame.symm

/-- C1: with the pair comparison that accepts a pair and its reverse, when `ngeoms`
does not exceed the number of stored objects and `i`, `j` are valid indices,
`addAllCollisionPairs()` succeeds and afterwards `existCollisionPair((i,j))` holds
if the objects at `i` and `j` sit on different joints, whether `i < j` or `i > j`,
and does not hold if they sit on the same joint. -/
theorem existCollisionPair_addAll_either_order (m : GeometryModel)
    (hwf : m.ngeoms ≤ m.geometryObjects.length) (i j : Nat)
    (hi : i < m.ngeoms) (hj : j < m.ngeoms) (oi oj : GeometryObject)
    (hoi : m.geometryObjects[i]? = some oi) (hoj : m.geometryObjects[j]? = some oj) :
    (addAllCollisionPairs .symmetric m).1 = .ok () ∧
      (oi.parentJoint ≠ oj.parentJoint →
        existCollisionPair .symmetric (addAllCollisionPairs .symmetric m).2 ⟨i, j⟩ = true) ∧
      (oi.parentJoint = oj.parentJoint →
        existCollisionPair .symmetric (addAllCollisionPairs .symmetric m).2 ⟨i, j⟩ = false) := by
  have h := existCollisionPair_after_addAll .symmetric m hwf i j hi hj oi oj hoi hoj
  refine ⟨?_, ?_, h.2.2⟩
  · rw [addAllCollisionPairs_eq .symmetric m hwf]
  · intro hd
    rcases Nat.lt_trichotomy i j with hlt | heq | hgt
    · exact h.1 hd hlt
    · exfalso
      subst heq
      rw [hoi] at hoj
      cases hoj
      exact hd rfl
    · exact (h.2.1 hd hgt).2 rfl

/-- Evaluation of C1 on the joints `[0,0,1]`: after `addAllCollisionPairs()` the
pair of the geometries `0` and `2` is found as `(0,2)` and as `(2,0)`, the
same-joint pair `(0,1)` is not found in either order. -/
theorem existCollisionPair_addAll_either_order_witness :
    existCollisionPair .symmetric (addAllCollisionPairs .symmetric catalog001).2 ⟨0, 2⟩ = true ∧
      existCollisionPair .symmetric (addAllCollisionPairs .symmetric catalog001).2 ⟨0, 1⟩
        = false ∧
      existCollisionPair .symmetric (addAllCollisionPairs .symmetric catalog001).2 ⟨1, 0⟩
        = false ∧
      existCollisionPair .symmetric (addAllCollisionPairs .symmetric catalog001).2 ⟨2, 0⟩
        = true :=
  ⟨by decide, by decide, by decide,
    (existCollisionPair_addAll_either_order catalog001 (by decide) 2 0 (by decide) (by decide)
      ⟨"c", 1, 1, 12⟩ ⟨"a", 0, 0, 10⟩ rfl rfl).2.1 (by decide)⟩

/-! ## Insertion of a stored pair and of its reverse -/

/-- Insertion next to a stored `(a,b)` under either pair comparison:
`addCollisionPair((a,b))` leaves the catalog unchanged; `addCollisionPair((b,a))`
leaves it unchanged exactly when `existCollisionPair((b,a))` holds and otherwise
appends `(b,a)`. It holds always when the comparison accepts a reversed pair, and
under the order-sensitive comparison exactly when `(b,a)` itself is stored. -/
theorem addCollisionPair_of_stored (k : PairEquality) (m : GeometryModel) (a b : Nat)
    (ha : a < m.ngeoms) (hb : b < m.ngeoms)
    (hs : (⟨a, b⟩ : CollisionPair) ∈ m.collisionPairs) :
    addCollisionPair k m ⟨a, b⟩ = (.ok (), m) ∧
      (addCollisionPair k m ⟨b, a⟩ = (.ok (), m) ↔ existCollisionPair k m ⟨b, a⟩ = true) ∧
      (existCollisionPair k m ⟨b, a⟩ = false →
        addCollisionPair k m ⟨b, a⟩
          = (.ok (), { m with collisionPairs := m.collisionPairs ++ [⟨b, a⟩] })) ∧
      (k = .symmetric → existCollisionPair k m ⟨b, a⟩ = true) ∧
      (k = .exact →
        (existCollisionPair k m ⟨b, a⟩ = true ↔ (⟨b, a⟩ : CollisionPair) ∈ m.collisionPairs)) := by
  refine ⟨?_, ?_, ?_, ?_, ?_⟩
  · exact addCollisionPair_of_exist k m ⟨a, b⟩ ha hb
      ((existCollisionPair_iff k m _).2 ⟨⟨a, b⟩, hs, eqv_refl k _⟩)
  · cases he : existCollisionPair k m ⟨b, a⟩
    · rw [addCollisionPair_of_not_exist k m ⟨b, a⟩ hb ha he]
      constructor
      · intro h
        have hlen := congrArg (fun r => r.2.collisionPairs.length) h
        simp at hlen
      · intro h
        cases h
    · rw [addCollisionPair_of_exist k m ⟨b, a⟩ hb ha he]
      simp
  · intro he
    exact addCollisionPair_of_not_exist k m ⟨b, a⟩ hb ha he
  · intro hk
    subst hk
    exact (existCollisionPair_iff _ m _).2 ⟨⟨a, b⟩, hs, by simp [CollisionPair.eqv]⟩
  · intro hk
    subst hk
    rw [existCollisionPair_iff]
    constructor
    · rintro ⟨p, hp, hv⟩
      rw [eqv_exact_iff] at hv
      subst hv
      exact hp
    · intro h
      exact ⟨⟨b, a⟩, h, eqv_refl _ _⟩

/-- C5: with the pair comparison that accepts a pair and its reverse, for valid
indices `a`, `b` and a pair list that contains `(a,b)`, `addCollisionPair((b,a))`
succeeds and leaves the catalog, hence the pair list, unchanged, and so does
`addCollisionPair((a,b))`. -/
theorem addCollisionPair_either_order (m : GeometryModel) (a b : Nat)
    (ha : a < m.ngeoms) (hb : b < m.ngeoms)
    (hs : (⟨a, b⟩ : CollisionPair) ∈ m.collisionPairs) :
    addCollisionPair .symmetric m ⟨b, a⟩ = (.ok (), m) ∧
      addCollisionPair .symmetric m ⟨a, b⟩ = (.ok (), m) := by
  have h := addCollisionPair_of_stored .symmetric m a b ha hb hs
  exact ⟨h.2.1.2 (h.2.2.2.1 rfl), h.1⟩

/-- Evaluation of C5 on two geometries with `(0,1)` stored: `addCollisionPair((1,0))`
and `addCollisionPair((0,1))` both return the catalog with the single pair
`(0,1)`. -/
theorem addCollisionPair_either_order_witness :
    (addCollisionPair .symmetric catalog01 ⟨1, 0⟩).2.collisionPairs = [⟨0, 1⟩] ∧
      (addCollisionPair .symmetric catalog01 ⟨0, 1⟩).2.collisionPairs = [⟨0, 1⟩] ∧
      addCollisionPair .symmetric catalog01 ⟨1, 0⟩ = (.ok (), catalog01) ∧
      addCollisionPair .symmetric catalog01 ⟨0, 1⟩ = (.ok (), catalog01) :=
  ⟨by decide, by decide,
    addCollisionPair_either_order catalog01 0 1 (by decide) (by decide) (by decide)⟩

/-! ## The joint maps -/

theorem JointMap.get_eq_nil_of_lt (mp : JointMap) (j : Nat) (h : ∀ e ∈ mp, j < e.1) :
    JointMap.get mp j = [] := by
  induction mp with
  | nil => rfl
  | cons e rest ih =>
    obtain ⟨k, v⟩ := e
    have hk : j < k := h (k, v) (List.mem_cons_self _ _)
    have hne : j ≠ k := Nat.ne_of_lt hk
    simp only [JointMap.get, hne, if_false]
    exact ih (fun e he => h e (List.mem_cons_of_mem _ he))

theorem JointMap.key_of_mem_pushBack (mp : JointMap) (j g : Nat) :
    ∀ e ∈ JointMap.pushBack mp j g, e.1 = j ∨ e.1 ∈ mp.map Prod.fst := by
  induction mp with
  | nil =>
    intro e he
    simp [JointMap.pushBack] at he
    simp [he]
  | cons e0 rest ih =>
    obtain ⟨k, v⟩ := e0
    intro e he
    unfold JointMap.pushBack at he
    split at he
    · rcases List.mem_cons.1 he with h | h
      · exact Or.inl (by rw [h])
      · right
        exact List.mem_map_of_mem Prod.fst h
    · split at he
      · rcases List.mem_cons.1 he with h | h
        · right
          rw [h]
          simp
        · right
          simp only [List.map_cons, List.mem_cons]
          exact Or.inr (List.mem_map_of_mem Prod.fst h)
      · rcases List.mem_cons.1 he with h | h
        · right
          rw [h]
          simp
        · rcases ih e h with h2 | h2
          · exact Or.inl h2
          · right
            simp only [List.map_cons, List.mem_cons]
            exact Or.inr h2

theorem JointMap.sorted_pushBack (mp : JointMap) (j g : Nat) (hs : mp.Sorted) :
    (JointMap.pushBack mp j g).Sorted := by
  induction mp with
  | nil => simp [JointMap.pushBack, JointMap.Sorted]
  | cons e0 rest ih =>
    obtain ⟨k, v⟩ := e0
    unfold JointMap.Sorted at hs
    simp only [List.map_cons, List.pairwise_cons] at hs
    obtain ⟨hk, hrest⟩ := hs
    unfold JointMap.pushBack
    split
    · rename_i hjk
      unfold JointMap.Sorted
      simp only [List.map_cons, List.pairwise_cons, List.mem_cons]
      refine ⟨?_, hk, hrest⟩
      intro a ha
      rcases ha with ha | ha
      · omega
      · have := hk a ha
        omega
    · split
      · unfold JointMap.Sorted
        simp only [List.map_cons, List.pairwise_cons]
        exact ⟨hk, hrest⟩
      · rename_i h1 h2
        unfold JointMap.Sorted
        simp only [List.map_cons, List.pairwise_cons]
        refine ⟨?_, ih hrest⟩
        intro a ha
        obtain ⟨e, he, rfl⟩ := List.mem_map.1 ha
        rcases JointMap.key_of_mem_pushBack rest j g e he with h | h
        · omega
        · exact hk _ h

theorem JointMap.get_pushBack (mp : JointMap) (j g : Nat) (hs : mp.Sorted) (J : Nat) :
    JointMap.get (JointMap.pushBack mp j g) J
      = if J = j then JointMap.get mp j ++ [g] else JointMap.get mp J := by
  induction mp with
  | nil =>
    by_cases h : J = j <;> simp [JointMap.pushBack, JointMap.get, h]
  | cons e0 rest ih =>
    obtain ⟨k, v⟩ := e0
    unfold JointMap.Sorted at hs
    simp only [List.map_cons, List.pairwise_cons] at hs
    obtain ⟨hk, hrest⟩ := hs
    unfold JointMap.pushBack
    split
    · rename_i hjk
      have hnil : JointMap.get ((k, v) :: rest) j = [] := by
        apply JointMap.get_eq_nil_of_lt
        intro e he
        rcases List.mem_cons.1 he with h | h
        · rw [h]
          exact hjk
        · have := hk e.1 (List.mem_map_of_mem Prod.fst h)
          omega
      by_cases h : J = j
      · subst h
        rw [hnil]
        simp [JointMap.get]
      · simp [JointMap.get, h]
    · split
      · rename_i h1 h2
        subst h2
        by_cases h : J = j
        · subst h
          simp [JointMap.get]
        · simp [JointMap.get, h]
      · rename_i h1 h2
        have hkj : k ≠ j := fun h => h2 h.symm
        by_cases h : J = j
        · subst h
          simp only [JointMap.get, h2, if_false, if_true]
          rw [ih hrest]
          simp
        · by_cases hJk : J = k
          · simp [JointMap.get, hJk, hkj]
          · simp only [JointMap.get, hJk, h, if_false]
            rw [ih hrest]
            simp [h]

theorem innerStep_spec (objs : List GeometryObject) (mp : JointMap) (g : Nat)
    (hs : mp.Sorted) :
    (innerStep objs mp g).Sorted ∧
      ∀ J, JointMap.get (innerStep objs mp g) J
        = JointMap.get mp J ++ (if hasJoint objs g J = true then [g] else []) := by
  unfold innerStep hasJoint
  cases objs[g]? with
  | none => simp [hs]
  | some o =>
    refine ⟨JointMap.sorted_pushBack mp _ g hs, ?_⟩
    intro J
    rw [JointMap.get_pushBack mp _ g hs J]
    by_cases h : J = o.parentJoint
    · subst h
      simp
    · have h2 : ¬ o.parentJoint = J := fun e => h e.symm
      simp [h, h2]

theorem outerStep_spec (objs : List GeometryObject) (mp : JointMap) (p : CollisionPair)
    (hs : mp.Sorted) :
    (outerStep objs mp p).Sorted ∧
      ∀ J, JointMap.get (outerStep objs mp p) J
        = JointMap.get mp J ++ (if hasJoint objs p.first J = true then [p.second] else []) := by
  unfold outerStep hasJoint
  cases objs[p.first]? with
  | none => simp [hs]
  | some o =>
    refine ⟨JointMap.sorted_pushBack mp _ p.second hs, ?_⟩
    intro J
    rw [JointMap.get_pushBack mp _ p.second hs J]
    by_cases h : J = o.parentJoint
    · subst h
      simp
    · have h2 : ¬ o.parentJoint = J := fun e => h e.symm
      simp [h, h2]

theorem foldl_innerStep_spec (objs : List GeometryObject) (gs : List Nat) :
    ∀ mp : JointMap, mp.Sorted →
      (gs.foldl (innerStep objs) mp).Sorted ∧
        ∀ J, JointMap.get (gs.foldl (innerStep objs) mp) J
          = JointMap.get mp J ++ gs.filter (fun g => hasJoint objs g J) := by
  induction gs with
  | nil =>
    intro mp hs
    simp [hs]
  | cons g rest ih =>
    intro mp hs
    obtain ⟨hs1, hget1⟩ := innerStep_spec objs mp g hs
    obtain ⟨hs2, hget2⟩ := ih (innerStep objs mp g) hs1
    refine ⟨hs2, ?_⟩
    intro J
    simp only [List.foldl_cons]
    rw [hget2 J, hget1 J, List.filter_cons]
    by_cases h : hasJoint objs g J = true <;> simp [h]

theorem foldl_outerStep_spec (objs : List GeometryObject) (ps : List CollisionPair) :
    ∀ mp : JointMap, mp.Sorted →
      (ps.foldl (outerStep objs) mp).Sorted ∧
        ∀ J, JointMap.get (ps.foldl (outerStep objs) mp) J
          = JointMap.get mp J ++
              (ps.filter (fun p => hasJoint objs p.first J)).map (fun p => p.second) := by
  induction ps with
  | nil =>
    intro mp hs
    simp [hs]
  | cons p rest ih =>
    intro mp hs
    obtain ⟨hs1, hget1⟩ := outerStep_spec objs mp p hs
    obtain ⟨hs2, hget2⟩ := ih (outerStep objs mp p) hs1
    refine ⟨hs2, ?_⟩
    intro J
    simp only [List.foldl_cons]
    rw [hget2 J, hget1 J, List.filter_cons]
    by_cases h : hasJoint objs p.first J = true <;> simp [h]

theorem forEach_fillInner (geomModel : GeometryModel) (gs : List Nat) :
    ∀ d : GeometryData, (∀ g ∈ gs, g < geomModel.geometryObjects.length) →
      forEach (fillInnerBody geomModel) gs d
        = (.ok (),
            { d with
              innerObjects := gs.foldl (innerStep geomModel.geometryObjects) d.innerObjects }) := by
  induction gs with
  | nil =>
    intro d _
    simp [forEach]
  | cons g rest ih =>
    intro d hg
    have hlt : g < geomModel.geometryObjects.length := hg g (List.mem_cons_self _ _)
    have hbody : fillInnerBody geomModel g d
        = (.ok (),
            { d with innerObjects := innerStep geomModel.geometryObjects d.innerObjects g }) := by
      simp [fillInnerBody, innerStep, List.getElem?_eq_getElem hlt]
    rw [forEach_cons_ok _ _ _ _ _ hbody, ih _ (fun x hx => hg x (List.mem_cons_of_mem _ hx))]
    simp

theorem fillOuterLoop_eq (geomModel : GeometryModel) (ps : List CollisionPair) :
    ∀ d : GeometryData, (∀ p ∈ ps, p.first < geomModel.geometryObjects.length) →
      fillOuterLoop geomModel ps d
        = (.ok (),
            { d with
              outerObjects := ps.foldl (outerStep geomModel.geometryObjects) d.outerObjects }) := by
  induction ps with
  | nil =>
    intro d _
    simp [fillOuterLoop]
  | cons p rest ih =>
    intro d hp
    have hlt : p.first < geomModel.geometryObjects.length := hp p (List.mem_cons_self _ _)
    have hbody : fillOuterBody geomModel p d
        = (.ok (),
            { d with
              outerObjects := outerStep geomModel.geometryObjects d.outerObjects p }) := by
      simp [fillOuterBody, outerStep, List.getElem?_eq_getElem hlt]
    simp only [fillOuterLoop, hbody]
    rw [ih _ (fun x hx => hp x (List.mem_cons_of_mem _ hx))]
    simp

theorem fillInnerOuterObjectMaps_eq (d : GeometryData) (geomModel : GeometryModel)
    (hp : ∀ p ∈ geomModel.collisionPairs, p.first < geomModel.geometryObjects.length) :
    fillInnerOuterObjectMaps d geomModel
      = (.ok (),
          { d with
            innerObjects :=
              (List.range geomModel.geometryObjects.length).foldl
                (innerStep geomModel.geometryObjects) []
            outerObjects :=
              geomModel.collisionPairs.foldl (outerStep geomModel.geometryObjects) [] }) := by
  unfold fillInnerOuterObjectMaps
  simp only
  rw [forEach_fillInner geomModel _ _ (fun g hg => List.mem_range.1 hg)]
  simp only
  rw [fillOuterLoop_eq geomModel _ _ hp]

theorem first_lt_length_of_valid (m : GeometryModel)
    (hwf : m.ngeoms ≤ m.geometryObjects.length) (hv : ValidPairs m) :
    ∀ p ∈ m.collisionPairs, p.first < m.geometryObjects.length :=
  fun p hp => Nat.lt_of_lt_of_le (hv p hp).1 hwf

theorem sorted_nil : JointMap.Sorted [] := by
  simp [JointMap.Sorted]

/-! ## fillInnerOuterObjectMaps and the constructor -/

/-- C9: when `ngeoms` does not exceed the number of stored objects and every stored
pair has both indices below `ngeoms`, `fillInnerOuterObjectMaps` succeeds from any
runtime state, and in the state `d1` it leaves: every geometry index `g`, with
object `o`, occurs exactly once in `innerObjects[o.parentJoint]` and in no other
joint's inner list; and for every stored pair `p` the object at `p.first` exists
and `p.second` occurs in `outerObjects` under that object's parent joint. -/
theorem fillInnerOuterObjectMaps_complete (d : GeometryData) (m : GeometryModel)
    (hwf : m.ngeoms ≤ m.geometryObjects.length) (hv : ValidPairs m) :
    ∃ d1 : GeometryData,
      fillInnerOuterObjectMaps d m = (.ok (), d1) ∧
        (∀ (g : Nat) (o : GeometryObject), m.geometryObjects[g]? = some o →
          (JointMap.get d1.innerObjects o.parentJoint).count g = 1 ∧
            ∀ J, J ≠ o.parentJoint → g ∉ JointMap.get d1.innerObjects J) ∧
        (∀ p ∈ m.collisionPairs,
          ∃ o, m.geometryObjects[p.first]? = some o ∧
            p.second ∈ JointMap.get d1.outerObjects o.parentJoint) := by
  have hp := first_lt_length_of_valid m hwf hv
  refine ⟨_, fillInnerOuterObjectMaps_eq d m hp, ?_, ?_⟩
  · intro g o hgo
    have hget := (foldl_innerStep_spec m.geometryObjects
      (List.range m.geometryObjects.length) [] sorted_nil).2
    have hlt : g < m.geometryObjects.length := by
      by_contra hge
      rw [List.getElem?_eq_none (Nat.le_of_not_lt hge)] at hgo
      cases hgo
    constructor
    · show (JointMap.get ((List.range m.geometryObjects.length).foldl
        (innerStep m.geometryObjects) []) o.parentJoint).count g = 1
      rw [hget]
      simp only [JointMap.get, List.nil_append]
      apply List.count_eq_one_of_mem
      · exact (List.nodup_range _).filter _
      · rw [List.mem_filter]
        exact ⟨List.mem_range.2 hlt, by simp [hasJoint, hgo]⟩
    · intro J hJ hmem
      change g ∈ JointMap.get ((List.range m.geometryObjects.length).foldl
        (innerStep m.geometryObjects) []) J at hmem
      rw [hget] at hmem
      simp only [JointMap.get, List.nil_append, List.mem_filter, hasJoint, hgo,
        beq_iff_eq] at hmem
      exact hJ hmem.2.symm
  · intro p hpm
    have hlt := hp p hpm
    refine ⟨m.geometryObjects[p.first], List.getElem?_eq_getElem hlt, ?_⟩
    have hget := (foldl_outerStep_spec m.geometryObjects m.collisionPairs [] sorted_nil).2
    show p.second ∈ JointMap.get (m.collisionPairs.foldl (outerStep m.geometryObjects) [])
      (m.geometryObjects[p.first]).parentJoint
    rw [hget]
    simp only [JointMap.get, List.nil_append, List.mem_map, List.mem_filter]
    exact ⟨p, ⟨hpm, by simp [hasJoint, List.getElem?_eq_getElem hlt]⟩, rfl⟩

/-- Evaluation of C9 on the joints `[0,0,1]` with the pairs `[(0,2),(1,2)]`: the
inner map is `{0: [0,1], 1: [2]}` and the outer map `{0: [2,2]}`. -/
theorem fillInnerOuterObjectMaps_complete_witness :
    (fillInnerOuterObjectMaps (GeometryData.init catalog001Pairs) catalog001Pairs).2.innerObjects
        = [(0, [0, 1]), (1, [2])] ∧
      (fillInnerOuterObjectMaps (GeometryData.init catalog001Pairs) catalog001Pairs).2.outerObjects
        = [(0, [2, 2])] ∧
      ∃ d1 : GeometryData,
        fillInnerOuterObjectMaps (GeometryData.init catalog001Pairs) catalog001Pairs
            = (.ok (), d1) ∧
          (∀ (g : Nat) (o : GeometryObject), catalog001Pairs.geometryObjects[g]? = some o →
            (JointMap.get d1.innerObjects o.parentJoint).count g = 1 ∧
              ∀ J, J ≠ o.parentJoint → g ∉ JointMap.get d1.innerObjects J) ∧
          (∀ p ∈ catalog001Pairs.collisionPairs,
            ∃ o, catalog001Pairs.geometryObjects[p.first]? = some o ∧
              p.second ∈ JointMap.get d1.outerObjects o.parentJoint) :=
  ⟨by decide, by decide,
    fillInnerOuterObjectMaps_complete (GeometryData.init catalog001Pairs) catalog001Pairs
      (by decide) (by unfold ValidPairs; decide)⟩

/-- C10: when `ngeoms` does not exceed the number of stored objects and every
stored pair has both indices below `ngeoms`, the constructor succeeds and the state
`d` it builds has `ngeoms` placements, a mask of pair-count entries all `true`,
distance and collision result lists of pair-count length, and the inner and outer
maps that `fillInnerOuterObjectMaps` builds from the catalog out of any state. -/
theorem construct_sizes_and_maps (m : GeometryModel)
    (hwf : m.ngeoms ≤ m.geometryObjects.length) (hv : ValidPairs m) :
    ∃ d : GeometryData,
      GeometryData.construct m = .ok d ∧
        d.oMg.length = m.ngeoms ∧
        d.activeCollisionPairs.length = m.collisionPairs.length ∧
        (∀ b ∈ d.activeCollisionPairs, b = true) ∧
        d.distanceResults.length = m.collisionPairs.length ∧
        d.collisionResults.length = m.collisionPairs.length ∧
        ∀ d0 : GeometryData, ∃ d1 : GeometryData,
          fillInnerOuterObjectMaps d0 m = (.ok (), d1) ∧
            d.innerObjects = d1.innerObjects ∧ d.outerObjects = d1.outerObjects := by
  have hp := first_lt_length_of_valid m hwf hv
  refine ⟨{ GeometryData.init m with
      innerObjects :=
        (List.range m.geometryObjects.length).foldl (innerStep m.geometryObjects) []
      outerObjects := m.collisionPairs.foldl (outerStep m.geometryObjects) [] },
    ?_, ?_, ?_, ?_, ?_, ?_, ?_⟩
  · unfold GeometryData.construct
    rw [fillInnerOuterObjectMaps_eq _ m hp]
  · simp [GeometryData.init]
  · simp [GeometryData.init]
  · intro b hb
    simp only [GeometryData.init] at hb
    exact (List.mem_replicate.1 hb).2
  · simp [GeometryData.init]
  · simp [GeometryData.init]
  · intro d0
    exact ⟨_, fillInnerOuterObjectMaps_eq d0 m hp, rfl, rfl⟩

/-- Evaluation of C10: the state built from the joints `[0,0,1]` catalog after
`addAllCollisionPairs()` has the mask `[true, true]`, and `[false, true]` after
`deactivateCollisionPair(0)`. -/
theorem construct_sizes_and_maps_witness :
    GeometryData.construct catalog001Pairs = .ok data001 ∧
      data001.activeCollisionPairs = [true, true] ∧
      deactivateCollisionPair data001 0
        = (.ok (), { data001 with activeCollisionPairs := [false, true] }) ∧
      ∃ d : GeometryData,
        GeometryData.construct catalog001Pairs = .ok d ∧
          d.oMg.length = catalog001Pairs.ngeoms ∧
          d.activeCollisionPairs.length = catalog001Pairs.collisionPairs.length ∧
          (∀ b ∈ d.activeCollisionPairs, b = true) ∧
          d.distanceResults.length = catalog001Pairs.collisionPairs.length ∧
          d.collisionResults.length = catalog001Pairs.collisionPairs.length ∧
          ∀ d0 : GeometryData, ∃ d1 : GeometryData,
            fillInnerOuterObjectMaps d0 catalog001Pairs = (.ok (), d1) ∧
              d.innerObjects = d1.innerObjects ∧ d.outerObjects = d1.outerObjects :=
  ⟨by decide, by decide, by decide,
    construct_sizes_and_maps catalog001Pairs (by decide) (by unfold ValidPairs; decide)⟩

/-! ## Activation mask -/

theorem activateCollisionPair_of_lt (d : GeometryData) (p : Nat)
    (h : p < d.activeCollisionPairs.length) :
    activateCollisionPair d p
      = (.ok (), { d with activeCollisionPairs := d.activeCollisionPairs.set p true }) := by
  simp [activateCollisionPair, h]

theorem deactivateCollisionPair_of_lt (d : GeometryData) (p : Nat)
    (h : p < d.activeCollisionPairs.length) :
    deactivateCollisionPair d p
      = (.ok (), { d with activeCollisionPairs := d.activeCollisionPairs.set p false }) := by
  simp [deactivateCollisionPair, h]

theorem activateCollisionPair_of_ge (d : GeometryData) (p : Nat)
    (h : d.activeCollisionPairs.length ≤ p) :
    activateCollisionPair d p = (.error .invalidArgument, d) := by
  have h2 : ¬ p < d.activeCollisionPairs.length := Nat.not_lt.2 h
  simp [activateCollisionPair, h2]

theorem deactivateCollisionPair_of_ge (d : GeometryData) (p : Nat)
    (h : d.activeCollisionPairs.length ≤ p) :
    deactivateCollisionPair d p = (.error .invalidArgument, d) := by
  have h2 : ¬ p < d.activeCollisionPairs.length := Nat.not_lt.2 h
  simp [deactivateCollisionPair, h2]

theorem set_eq_self_of_getElem? {α : Type} (l : List α) (i : Nat) (a : α)
    (h : l[i]? = some a) : l.set i a = l := by
  induction l generalizing i with
  | nil => rfl
  | cons x xs ih =>
    cases i with
    | zero =>
      simp at h
      simp [h]
    | succ i =>
      simp at h
      simp [ih i h]

/-- C11: `activateCollisionPair(pairId)` and `deactivateCollisionPair(pairId)` each
fail, and then with InvalidArgument, exactly when `pairId` is not below the length
of the activation mask; a failing call leaves the runtime state as it was. -/
theorem activation_fails_iff (d : GeometryData) (pairId : Nat) :
    (((activateCollisionPair d pairId).1 = .error .invalidArgument ↔
          d.activeCollisionPairs.length ≤ pairId) ∧
        ((∃ e, (activateCollisionPair d pairId).1 = .error e) ↔
          d.activeCollisionPairs.length ≤ pairId) ∧
        ((∃ e, (activateCollisionPair d pairId).1 = .error e) →
          (activateCollisionPair d pairId).2 = d)) ∧
      (((deactivateCollisionPair d pairId).1 = .error .invalidArgument ↔
          d.activeCollisionPairs.length ≤ pairId) ∧
        ((∃ e, (deactivateCollisionPair d pairId).1 = .error e) ↔
          d.activeCollisionPairs.length ≤ pairId) ∧
        ((∃ e, (deactivateCollisionPair d pairId).1 = .error e) →
          (deactivateCollisionPair d pairId).2 = d)) := by
  by_cases h : pairId < d.activeCollisionPairs.length
  · have h2 : ¬ d.activeCollisionPairs.length ≤ pairId := Nat.not_le.2 h
    rw [activateCollisionPair_of_lt d pairId h, deactivateCollisionPair_of_lt d pairId h]
    simp [h2]
  · have h2 : d.activeCollisionPairs.length ≤ pairId := Nat.le_of_not_lt h
    rw [activateCollisionPair_of_ge d pairId h2, deactivateCollisionPair_of_ge d pairId h2]
    simp [h2]

/-- Evaluation of C11 on the state with two pairs: index `2` is refused by both
calls and the state is returned as it was, index `1` is accepted. -/
theorem activation_fails_iff_witness :
    activateCollisionPair data001 2 = (.error .invalidArgument, data001) ∧
      deactivateCollisionPair data001 2 = (.error .invalidArgument, data001) ∧
      (deactivateCollisionPair data001 1).1 = .ok () ∧
      (activateCollisionPair data001 2).1 = .error .invalidArgument :=
  ⟨by decide, by decide, by decide, (activation_fails_iff data001 2).1.1.2 (by decide)⟩

/-- C12: for a valid pair index `p`, `activateCollisionPair(p)` followed by
`deactivateCollisionPair(p)` succeeds, leaves mask entry `p` false, and gives the
very result of `deactivateCollisionPair(p)` alone, whatever entry `p` held. -/
theorem activate_then_deactivate (d : GeometryData) (p : Nat)
    (h : p < d.activeCollisionPairs.length) :
    (activateCollisionPair d p).1 = .ok () ∧
      (deactivateCollisionPair (activateCollisionPair d p).2 p).1 = .ok () ∧
      (deactivateCollisionPair (activateCollisionPair d p).2 p).2.activeCollisionPairs[p]?
        = some false ∧
      deactivateCollisionPair (activateCollisionPair d p).2 p = deactivateCollisionPair d p := by
  rw [activateCollisionPair_of_lt d p h]
  have h2 : p < (d.activeCollisionPairs.set p true).length := by
    rw [List.length_set]
    exact h
  rw [deactivateCollisionPair_of_lt _ p h2, deactivateCollisionPair_of_lt d p h]
  refine ⟨rfl, rfl, ?_, ?_⟩
  · simp [List.set_set, List.getElem?_set_self h]
  · simp [List.set_set]

/-- Evaluation of C12 on the state with mask `[true, true]`, and on the same state
with pair `0` inactive beforehand. -/
theorem activate_then_deactivate_witness :
    (deactivateCollisionPair (activateCollisionPair data001 0).2 0).2.activeCollisionPairs
        = [false, true] ∧
      (deactivateCollisionPair
          (activateCollisionPair (deactivateCollisionPair data001 0).2 0).2 0).2
        = (deactivateCollisionPair data001 0).2 ∧
      deactivateCollisionPair (activateCollisionPair data001 0).2 0
        = deactivateCollisionPair data001 0 :=
  ⟨by decide, by decide, (activate_then_deactivate data001 0 (by decide)).2.2.2⟩

/-- C13: for a valid pair index `p`, `activateCollisionPair(p)` succeeds and
replaces mask entry `p` by true, `deactivateCollisionPair(p)` succeeds and replaces
it by false; either call leaves every other mask entry, the mask length and every
other member of the state as they were, and returns the state unchanged when the
entry already had the value written. -/
theorem activation_frame (d : GeometryData) (p : Nat)
    (h : p < d.activeCollisionPairs.length) :
    (activateCollisionPair d p
          = (.ok (), { d with activeCollisionPairs := d.activeCollisionPairs.set p true }) ∧
        (activateCollisionPair d p).2.activeCollisionPairs[p]? = some true ∧
        (∀ q : Nat, q ≠ p →
          (activateCollisionPair d p).2.activeCollisionPairs[q]? = d.activeCollisionPairs[q]?) ∧
        (activateCollisionPair d p).2.activeCollisionPairs.length
          = d.activeCollisionPairs.length ∧
        (d.activeCollisionPairs[p]? = some true → activateCollisionPair d p = (.ok (), d))) ∧
      (deactivateCollisionPair d p
          = (.ok (), { d with activeCollisionPairs := d.activeCollisionPairs.set p false }) ∧
        (deactivateCollisionPair d p).2.activeCollisionPairs[p]? = some false ∧
        (∀ q : Nat, q ≠ p →
          (deactivateCollisionPair d p).2.activeCollisionPairs[q]?
            = d.activeCollisionPairs[q]?) ∧
        (deactivateCollisionPair d p).2.activeCollisionPairs.length
          = d.activeCollisionPairs.length ∧
        (d.activeCollisionPairs[p]? = some false →
          deactivateCollisionPair d p = (.ok (), d))) := by
  rw [activateCollisionPair_of_lt d p h, deactivateCollisionPair_of_lt d p h]
  refine ⟨⟨rfl, ?_, ?_, ?_, ?_⟩, ⟨rfl, ?_, ?_, ?_, ?_⟩⟩
  · simp [List.getElem?_set_self h]
  · intro q hq
    simp [List.getElem?_set_ne (Ne.symm hq)]
  · simp
  · intro hp
    simp [set_eq_self_of_getElem? _ _ _ hp]
  · simp [List.getElem?_set_self h]
  · intro q hq
    simp [List.getElem?_set_ne (Ne.symm hq)]
  · simp
  · intro hp
    simp [set_eq_self_of_getElem? _ _ _ hp]

/-- Evaluation of C13 on the state with mask `[true, true]`: re-activating pair `1`
returns the state unchanged, deactivating it changes the mask to `[true, false]`
and nothing else. -/
theorem activation_frame_witness :
    activateCollisionPair data001 1 = (.ok (), data001) ∧
      deactivateCollisionPair data001 1
        = (.ok (), { data001 with activeCollisionPairs := [true, false] }) ∧
      (activateCollisionPair data001 1).2.activeCollisionPairs[1]? = some true :=
  ⟨by decide, by decide, (activation_frame data001 1 (by decide)).1.2.1⟩

/-! ## addGeometryObject -/

theorem addGeometryObjectWithModel_of_no_frame (m : GeometryModel) (object : GeometryObject)
    (model : Model) (hn : model.nframes ≤ object.parentFrame)
    (hl : model.frames.length ≤ object.parentFrame) :
    addGeometryObjectWithModel m object model
      = (.error .outOfRange,
          { m with ngeoms := m.ngeoms + 1, geometryObjects := m.geometryObjects ++ [object] }) := by
  have h1 : ¬ object.parentFrame < model.nframes := Nat.not_lt.2 hn
  simp [addGeometryObjectWithModel, h1, List.getElem?_eq_none hl]

theorem addGeometryObjectWithModel_of_match (m : GeometryModel) (object : GeometryObject)
    (model : Model) (fr : Frame) (hpf : object.parentFrame < model.nframes)
    (hfr : model.frames[object.parentFrame]? = some fr)
    (h : fr.parent = object.parentJoint) :
    addGeometryObjectWithModel m object model
      = (.ok m.ngeoms,
          { m with
            ngeoms := m.ngeoms + 1
            geometryObjects :=
              m.geometryObjects ++ [{ object with parentJoint := fr.parent }] }) := by
  simp [addGeometryObjectWithModel, hpf, hfr, h]

theorem addGeometryObjectWithModel_of_mismatch (m : GeometryModel) (object : GeometryObject)
    (model : Model) (fr : Frame) (hpf : object.parentFrame < model.nframes)
    (hfr : model.frames[object.parentFrame]? = some fr)
    (h : fr.parent ≠ object.parentJoint) :
    addGeometryObjectWithModel m object model = (.error .invalidArgument, m) := by
  simp [addGeometryObjectWithModel, hpf, hfr, h]

/-- C14: for an object whose `parentFrame` is below `nframes`, with `fr` the frame
stored at that index, `addGeometryObject(object, model)` fails, and then with
InvalidArgument and the catalog unchanged, exactly when `fr.parent` differs from
`object.parentJoint`; otherwise it returns the previous `ngeoms`, raises `ngeoms` by
one and appends the object with `parentJoint` set to `fr.parent` and every other
member as given. -/
theorem addGeometryObjectWithModel_checked (m : GeometryModel) (object : GeometryObject)
    (model : Model) (fr : Frame) (hpf : object.parentFrame < model.nframes)
    (hfr : model.frames[object.parentFrame]? = some fr) :
    ((addGeometryObjectWithModel m object model).1 = .error .invalidArgument ↔
        fr.parent ≠ object.parentJoint) ∧
      ((∃ e, (addGeometryObjectWithModel m object model).1 = .error e) ↔
        fr.parent ≠ object.parentJoint) ∧
      (fr.parent ≠ object.parentJoint →
        addGeometryObjectWithModel m object model = (.error .invalidArgument, m)) ∧
      (fr.parent = object.parentJoint →
        addGeometryObjectWithModel m object model
          = (.ok m.ngeoms,
              { m with
                ngeoms := m.ngeoms + 1
                geometryObjects :=
                  m.geometryObjects ++ [{ object with parentJoint := fr.parent }] })) := by
  by_cases h : fr.parent = object.parentJoint
  · rw [addGeometryObjectWithModel_of_match m object model fr hpf hfr h]
    simp [h]
  · rw [addGeometryObjectWithModel_of_mismatch m object model fr hpf hfr h]
    simp [h]

/-- Evaluation of C14 with the one-frame model: an object declaring joint `3` on
frame `0` is refused and the catalog kept; an object declaring joint `0` is stored
at index `3`. -/
theorem addGeometryObjectWithModel_checked_witness :
    addGeometryObjectWithModel catalog001 objectWrongJoint modelOneFrame
        = (.error .invalidArgument, catalog001) ∧
      addGeometryObjectWithModel catalog001 objectFrame0 modelOneFrame
        = (.ok 3,
            { catalog001 with
              ngeoms := 4
              geometryObjects := catalog001.geometryObjects ++ [objectFrame0] }) ∧
      (addGeometryObjectWithModel catalog001 objectWrongJoint modelOneFrame).1
        = .error .invalidArgument :=
  ⟨by decide, by decide,
    (addGeometryObjectWithModel_checked catalog001 objectWrongJoint modelOneFrame ⟨0⟩
      (by decide) (by decide)).1.2 (by decide)⟩

/-- C15, the code at a failing input: the model has one frame, the object declares
frame `5` and joint `3`. The check is skipped, `ngeoms` is raised and the object
pushed, and the statement that overwrites `parentJoint` reads `model.frames[5]`,
past the end of `frames`. -/
theorem addGeometryObjectWithModel_reads_past_frames :
    modelOneFrame.nframes ≤ objectNoFrame.parentFrame ∧
      addGeometryObjectWithModel catalog001 objectNoFrame modelOneFrame
        = (.error .outOfRange,
            { catalog001 with
              ngeoms := 4
              geometryObjects := catalog001.geometryObjects ++ [objectNoFrame] }) :=
  ⟨by decide,
    addGeometryObjectWithModel_of_no_frame catalog001 objectNoFrame modelOneFrame
      (by decide) (by decide)⟩

theorem getGeometryId_append_of_exist (m : GeometryModel) (object : GeometryObject)
    (name : String) (h : existGeometryName m name = true) :
    getGeometryId
        { m with ngeoms := m.ngeoms + 1, geometryObjects := m.geometryObjects ++ [object] } name
      = getGeometryId m name := by
  unfold existGeometryName at h
  rw [findIdx_bne_length] at h
  unfold getGeometryId
  simp only [List.findIdx_append, h, if_true]

/-- C16: when `ngeoms` equals the number of stored objects, `addGeometryObject(object)`
succeeds, returns the previous `ngeoms`, stores `object` as given at that index,
raises `ngeoms` and the number of stored objects by one each so that they stay
equal, keeps every stored object at its index and the pair list as it was, and
leaves `getGeometryId(name)` unchanged for every name that existed. -/
theorem addGeometryObject_appends (m : GeometryModel) (object : GeometryObject)
    (hwf : m.ngeoms = m.geometryObjects.length) :
    (addGeometryObject m object).1 = .ok m.ngeoms ∧
      (addGeometryObject m object).2.geometryObjects[m.ngeoms]? = some object ∧
      (addGeometryObject m object).2.ngeoms = m.ngeoms + 1 ∧
      (addGeometryObject m object).2.geometryObjects.length = m.geometryObjects.length + 1 ∧
      (addGeometryObject m object).2.ngeoms
        = (addGeometryObject m object).2.geometryObjects.length ∧
      (∀ (i : Nat) (o : GeometryObject), m.geometryObjects[i]? = some o →
        (addGeometryObject m object).2.geometryObjects[i]? = some o) ∧
      (addGeometryObject m object).2.collisionPairs = m.collisionPairs ∧
      (∀ name : String, existGeometryName m name = true →
        getGeometryId (addGeometryObject m object).2 name = getGeometryId m name) := by
  unfold addGeometryObject
  refine ⟨rfl, ?_, rfl, by simp, by simp [hwf], ?_, rfl, ?_⟩
  · simp [hwf]
  · intro i o hi
    have hlt : i < m.geometryObjects.length := by
      by_contra hge
      rw [List.getElem?_eq_none (Nat.le_of_not_lt hge)] at hi
      cases hi
    show (m.geometryObjects ++ [object])[i]? = some o
    rw [List.getElem?_append_left hlt]
    exact hi
  · intro name hname
    exact getGeometryId_append_of_exist m object name hname

/-- Evaluation of C16: a fourth object named `"a"` added to the catalog holding
`a, b, b` gets index `3`, and `"a"`, `"b"` keep the ids `0`, `1`. -/
theorem addGeometryObject_appends_witness :
    (addGeometryObject catalogNames objectFrame0).1 = .ok 3 ∧
      getGeometryId (addGeometryObject catalogNames ⟨"a", 0, 0, 13⟩).2 "a" = 0 ∧
      getGeometryId (addGeometryObject catalogNames ⟨"a", 0, 0, 13⟩).2 "b" = 1 ∧
      (addGeometryObject catalogNames objectFrame0).2.geometryObjects[catalogNames.ngeoms]?
        = some objectFrame0 :=
  ⟨by decide, by decide, by decide,
    (addGeometryObject_appends catalogNames objectFrame0 (by decide)).2.1⟩

/-! ## removeCollisionPair and removeAllCollisionPairs -/

theorem eqv_comm (k : PairEquality) (a b : CollisionPair) :
    CollisionPair.eqv k a b = CollisionPair.eqv k b a := by
  cases k <;> cases a <;> cases b <;> rw [Bool.eq_iff_iff] <;> simp [CollisionPair.eqv] <;> omega

theorem eqv_of_eqv_both (k : PairEquality) (a b p : CollisionPair)
    (ha : CollisionPair.eqv k a p = true) (hb : CollisionPair.eqv k b p = true) :
    CollisionPair.eqv k a b = true := by
  rcases eqv_sound k a p ha with h1 | h1 <;> rcases eqv_sound k b p hb with h2 | h2
  · rw [h1, h2]
    exact eqv_refl k p
  · cases k
    · rw [eqv_exact_iff] at ha hb
      rw [ha, hb]
      exact eqv_refl _ p
    · rw [h1, h2]
      simp [CollisionPair.eqv]
  · cases k
    · rw [eqv_exact_iff] at ha hb
      rw [ha, hb]
      exact eqv_refl _ p
    · rw [h1, h2]
      simp [CollisionPair.eqv]
  · rw [h1, h2]
    exact eqv_refl k _

theorem noEqualPairs_nodup (k : PairEquality) (l : List CollisionPair)
    (h : NoEqualPairs k l) : l.Nodup := by
  unfold NoEqualPairs at h
  refine h.imp ?_
  intro a b hab he
  rw [he, eqv_refl] at hab
  cases hab

theorem noEqualPairs_exact_iff (l : List CollisionPair) :
    NoEqualPairs .exact l ↔ l.Nodup := by
  unfold NoEqualPairs List.Nodup
  constructor
  · intro h
    refine h.imp ?_
    intro a b hab he
    rw [he, eqv_refl] at hab
    cases hab
  · intro h
    refine h.imp ?_
    intro a b hab
    cases hv : CollisionPair.eqv .exact a b
    · rfl
    · exact absurd ((eqv_exact_iff a b).1 hv) hab

theorem eraseIdx_findIdx_eq_filter (k : PairEquality) (p : CollisionPair) :
    ∀ l : List CollisionPair, NoEqualPairs k l →
      (∃ q ∈ l, CollisionPair.eqv k q p = true) →
      l.eraseIdx (l.findIdx (fun q => CollisionPair.eqv k q p))
        = l.filter (fun q => !CollisionPair.eqv k q p) := by
  intro l
  induction l with
  | nil =>
    intro _ h
    obtain ⟨q, hq, _⟩ := h
    cases hq
  | cons x xs ih =>
    intro hnd hex
    unfold NoEqualPairs at hnd
    rw [List.pairwise_cons] at hnd
    obtain ⟨hx, hxs⟩ := hnd
    cases hv : CollisionPair.eqv k x p
    · have hex2 : ∃ q ∈ xs, CollisionPair.eqv k q p = true := by
        obtain ⟨q, hq, hqp⟩ := hex
        rcases List.mem_cons.1 hq with h | h
        · rw [h, hv] at hqp
          cases hqp
        · exact ⟨q, h, hqp⟩
      simp only [List.findIdx_cons, hv, cond_false, List.eraseIdx_cons_succ, List.filter_cons,
        Bool.not_false, if_true]
      rw [ih hxs hex2]
    · have hall : ∀ q ∈ xs, (!CollisionPair.eqv k q p) = true := by
        intro q hq
        cases hq2 : CollisionPair.eqv k q p
        · rfl
        · have := eqv_of_eqv_both k x q p hv hq2
          rw [hx q hq] at this
          cases this
      simp only [List.findIdx_cons, hv, cond_true, List.eraseIdx_cons_zero, List.filter_cons,
        Bool.not_true, Bool.false_eq_true, if_false]
      exact (List.filter_eq_self.2 hall).symm

theorem removeCollisionPair_of_invalid (k : PairEquality) (m : GeometryModel)
    (pair : CollisionPair) (h : m.ngeoms ≤ pair.first ∨ m.ngeoms ≤ pair.second) :
    removeCollisionPair k m pair = (.error .invalidArgument, m) := by
  unfold removeCollisionPair
  by_cases h1 : pair.first < m.ngeoms
  · have h2 : ¬ pair.second < m.ngeoms := by omega
    simp [h1, h2]
  · simp [h1]

theorem removeCollisionPair_of_not_exist (k : PairEquality) (m : GeometryModel)
    (pair : CollisionPair) (h1 : pair.first < m.ngeoms) (h2 : pair.second < m.ngeoms)
    (he : existCollisionPair k m pair = false) :
    removeCollisionPair k m pair = (.ok (), m) := by
  have hlen : m.collisionPairs.findIdx (fun p => CollisionPair.eqv k p pair)
      = m.collisionPairs.length :=
    List.findIdx_eq_length.2 ((existCollisionPair_false_iff k m pair).1 he)
  simp [removeCollisionPair, h1, h2, hlen]

theorem removeCollisionPair_of_exist (k : PairEquality) (m : GeometryModel)
    (pair : CollisionPair) (h1 : pair.first < m.ngeoms) (h2 : pair.second < m.ngeoms)
    (he : existCollisionPair k m pair = true) :
    removeCollisionPair k m pair
      = (.ok (),
          { m with
            collisionPairs := m.collisionPairs.eraseIdx (findCollisionPair k m pair) }) := by
  have hlt := (existCollisionPair_eq_find k m pair).1 he
  unfold findCollisionPair at hlt ⊢
  have hne : ¬ m.collisionPairs.findIdx (fun p => CollisionPair.eqv k p pair)
      = m.collisionPairs.length := Nat.ne_of_lt hlt
  simp [removeCollisionPair, h1, h2, hne]

/-- C17, counterexample: on three geometries with the pairs `[(0,2),(1,2)]`, the
pair `(3,0)` is not stored and its first index is not below `ngeoms`;
`removeCollisionPair((3,0))` fails with InvalidArgument under either pair
comparison. -/
theorem removeCollisionPair_out_of_range_fails :
    (⟨3, 0⟩ : CollisionPair) ∉ catalog001Pairs.collisionPairs ∧
      existCollisionPair .exact catalog001Pairs ⟨3, 0⟩ = false ∧
      existCollisionPair .symmetric catalog001Pairs ⟨3, 0⟩ = false ∧
      catalog001Pairs.ngeoms ≤ 3 ∧
      removeCollisionPair .exact catalog001Pairs ⟨3, 0⟩
        = (.error .invalidArgument, catalog001Pairs) ∧
      removeCollisionPair .symmetric catalog001Pairs ⟨3, 0⟩
        = (.error .invalidArgument, catalog001Pairs) :=
  ⟨by decide, by decide, by decide, by decide, by decide, by decide⟩

/-- C17, amended: for a pair that `existCollisionPair` does not find,
`removeCollisionPair(pair)` succeeds and changes nothing when both indices are below
`ngeoms`, and fails with InvalidArgument when one is not; in both cases the catalog,
hence the pair list, is left as it was. -/
theorem removeCollisionPair_absent (k : PairEquality) (m : GeometryModel)
    (pair : CollisionPair) (he : existCollisionPair k m pair = false) :
    ((pair.first < m.ngeoms ∧ pair.second < m.ngeoms) →
        removeCollisionPair k m pair = (.ok (), m)) ∧
      ((m.ngeoms ≤ pair.first ∨ m.ngeoms ≤ pair.second) →
        removeCollisionPair k m pair = (.error .invalidArgument, m)) ∧
      (removeCollisionPair k m pair).2 = m := by
  refine ⟨fun h => removeCollisionPair_of_not_exist k m pair h.1 h.2 he,
    fun h => removeCollisionPair_of_invalid k m pair h, ?_⟩
  by_cases h : m.ngeoms ≤ pair.first ∨ m.ngeoms ≤ pair.second
  · rw [removeCollisionPair_of_invalid k m pair h]
  · rw [removeCollisionPair_of_not_exist k m pair (by omega) (by omega) he]

/-- Evaluation of C17 (amended): the absent, valid pair `(0,1)` is removed without
error and without change. -/
theorem removeCollisionPair_absent_witness :
    existCollisionPair .exact catalog001Pairs ⟨0, 1⟩ = false ∧
      removeCollisionPair .exact catalog001Pairs ⟨0, 1⟩ = (.ok (), catalog001Pairs) :=
  ⟨by decide,
    (removeCollisionPair_absent .exact catalog001Pairs ⟨0, 1⟩ (by decide)).1
      ⟨by decide, by decide⟩⟩

/-- C18: when no two stored pairs compare equal and every stored pair has both
indices below `ngeoms`, `removeCollisionPair(p)` for a stored pair `p` succeeds and
changes the pair list only; the new list `L` is one shorter, no longer holds a pair
that compares equal to `p`, is the old list with entries left out (so the order of
what remains is kept), and still holds every stored pair other than `p`.
`removeAllCollisionPairs()` empties the pair list and changes nothing else. -/
theorem removeCollisionPair_stored (k : PairEquality) (m : GeometryModel) (p : CollisionPair)
    (hnd : NoEqualPairs k m.collisionPairs) (hv : ValidPairs m)
    (hp : p ∈ m.collisionPairs) :
    (∃ L : List CollisionPair,
        removeCollisionPair k m p = (.ok (), { m with collisionPairs := L }) ∧
          L.length + 1 = m.collisionPairs.length ∧
          existCollisionPair k { m with collisionPairs := L } p = false ∧
          L.Sublist m.collisionPairs ∧
          (∀ q ∈ m.collisionPairs, q ≠ p → q ∈ L)) ∧
      removeAllCollisionPairs m = { m with collisionPairs := [] } := by
  refine ⟨?_, rfl⟩
  have hex : ∃ q ∈ m.collisionPairs, CollisionPair.eqv k q p = true := ⟨p, hp, eqv_refl k p⟩
  have he : existCollisionPair k m p = true := (existCollisionPair_iff k m p).2 hex
  have hlt := (existCollisionPair_eq_find k m p).1 he
  refine ⟨_, removeCollisionPair_of_exist k m p (hv p hp).1 (hv p hp).2 he, ?_, ?_, ?_, ?_⟩
  · rw [List.length_eraseIdx_of_lt hlt]
    omega
  · rw [existCollisionPair_false_iff]
    intro q hq
    unfold findCollisionPair at hq
    simp only [eraseIdx_findIdx_eq_filter k p _ hnd hex, List.mem_filter] at hq
    simpa using hq.2
  · exact List.eraseIdx_sublist _ _
  · intro q hq hne
    unfold findCollisionPair
    rw [eraseIdx_findIdx_eq_filter k p _ hnd hex, List.mem_filter]
    refine ⟨hq, ?_⟩
    cases hqp : CollisionPair.eqv k q p
    · rfl
    · exfalso
      have hsymm : Symmetric (fun a b : CollisionPair => CollisionPair.eqv k a b = false) := by
        intro a b hab
        rw [eqv_comm]
        exact hab
      have := List.Pairwise.forall hsymm hnd hq hp hne
      rw [hqp] at this
      cases this

/-- Evaluation of C18: removing `(0,2)` from `[(0,2),(1,2)]` leaves `[(1,2)]`, and
`removeAllCollisionPairs()` leaves no pair. -/
theorem removeCollisionPair_stored_witness :
    removeCollisionPair .exact catalog001Pairs ⟨0, 2⟩
        = (.ok (), { catalog001Pairs with collisionPairs := [⟨1, 2⟩] }) ∧
      (removeAllCollisionPairs catalog001Pairs).collisionPairs = [] ∧
      ((∃ L : List CollisionPair,
          removeCollisionPair .exact catalog001Pairs ⟨0, 2⟩
              = (.ok (), { catalog001Pairs with collisionPairs := L }) ∧
            L.length + 1 = catalog001Pairs.collisionPairs.length ∧
            existCollisionPair .exact { catalog001Pairs with collisionPairs := L } ⟨0, 2⟩
              = false ∧
            L.Sublist catalog001Pairs.collisionPairs ∧
            (∀ q ∈ catalog001Pairs.collisionPairs, q ≠ ⟨0, 2⟩ → q ∈ L)) ∧
        removeAllCollisionPairs catalog001Pairs
          = { catalog001Pairs with collisionPairs := [] }) :=
  ⟨by decide, by decide,
    removeCollisionPair_stored .exact catalog001Pairs ⟨0, 2⟩
      ((noEqualPairs_exact_iff _).2 (by decide)) (by unfold ValidPairs; decide) (by decide)⟩

/-! ## The catalog invariant -/

theorem catalogInvariant_empty (k : PairEquality) : CatalogInvariant k emptyCatalog := by
  refine ⟨rfl, List.Pairwise.nil, ?_⟩
  intro p hp
  cases hp

theorem catalogInvariant_push (k : PairEquality) (m : GeometryModel) (o : GeometryObject)
    (h : CatalogInvariant k m) :
    CatalogInvariant k
      { m with ngeoms := m.ngeoms + 1, geometryObjects := m.geometryObjects ++ [o] } := by
  obtain ⟨hwf, hnd, hv⟩ := h
  refine ⟨by simp [hwf], hnd, ?_⟩
  intro p hp
  have := hv p hp
  show p.first < m.ngeoms + 1 ∧ p.second < m.ngeoms + 1
  omega

theorem catalogInvariant_of_pairs (k : PairEquality) (m : GeometryModel)
    (L : List CollisionPair) (hwf : m.ngeoms = m.geometryObjects.length)
    (hnd : NoEqualPairs k L) (hv : ∀ p ∈ L, p.first < m.ngeoms ∧ p.second < m.ngeoms) :
    CatalogInvariant k { m with collisionPairs := L } :=
  ⟨hwf, hnd, hv⟩

theorem eqv_false_of_lexLt (k : PairEquality) (p q : CollisionPair) (hp : p.first < p.second)
    (hq : q.first < q.second) (hlt : CollisionPair.lexLt p q) :
    CollisionPair.eqv k p q = false := by
  cases hv : CollisionPair.eqv k p q
  · rfl
  · exfalso
    unfold CollisionPair.lexLt at hlt
    rcases eqv_sound k p q hv with h | h
    · rw [h] at hlt
      omega
    · rw [h] at hlt hp
      simp at hlt hp
      omega

theorem noEqualPairs_allPairs (k : PairEquality) (n : Nat) (objs : List GeometryObject) :
    NoEqualPairs k (allPairs n objs) := by
  unfold NoEqualPairs
  refine (allPairs_pairwise n objs).imp_of_mem ?_
  intro a b ha hb hlt
  exact eqv_false_of_lexLt k a b ((mem_allPairs n objs a).1 ha).1
    ((mem_allPairs n objs b).1 hb).1 hlt

theorem addCollisionPair_invariant (k : PairEquality) (m : GeometryModel)
    (pair : CollisionPair) (h : CatalogInvariant k m) :
    (addCollisionPair k m pair).1 ≠ .error .outOfRange ∧
      CatalogInvariant k (addCollisionPair k m pair).2 := by
  by_cases hin : m.ngeoms ≤ pair.first ∨ m.ngeoms ≤ pair.second
  · rw [addCollisionPair_of_invalid k m pair hin]
    exact ⟨by simp, h⟩
  · have h1 : pair.first < m.ngeoms := by omega
    have h2 : pair.second < m.ngeoms := by omega
    cases he : existCollisionPair k m pair
    · rw [addCollisionPair_of_not_exist k m pair h1 h2 he]
      refine ⟨by simp, ?_⟩
      obtain ⟨hwf, hnd, hv⟩ := h
      refine catalogInvariant_of_pairs k m _ hwf ?_ ?_
      · unfold NoEqualPairs at hnd ⊢
        rw [List.pairwise_append]
        refine ⟨hnd, List.pairwise_singleton _ _, ?_⟩
        intro a ha b hb
        rw [List.mem_singleton] at hb
        rw [hb]
        exact (existCollisionPair_false_iff k m pair).1 he a ha
      · intro p hp
        rcases List.mem_append.1 hp with hp | hp
        · exact hv p hp
        · rw [List.mem_singleton] at hp
          rw [hp]
          exact ⟨h1, h2⟩
    · rw [addCollisionPair_of_exist k m pair h1 h2 he]
      exact ⟨by simp, h⟩

theorem addAllCollisionPairs_invariant (k : PairEquality) (m : GeometryModel)
    (h : CatalogInvariant k m) :
    (addAllCollisionPairs k m).1 ≠ .error .outOfRange ∧
      CatalogInvariant k (addAllCollisionPairs k m).2 := by
  obtain ⟨hwf, _, _⟩ := h
  rw [addAllCollisionPairs_eq k m (Nat.le_of_eq hwf)]
  refine ⟨by simp, catalogInvariant_of_pairs k m _ hwf (noEqualPairs_allPairs k _ _) ?_⟩
  intro p hp
  have := (mem_allPairs _ _ p).1 hp
  omega

theorem removeCollisionPair_invariant (k : PairEquality) (m : GeometryModel)
    (pair : CollisionPair) (h : CatalogInvariant k m) :
    (removeCollisionPair k m pair).1 ≠ .error .outOfRange ∧
      CatalogInvariant k (removeCollisionPair k m pair).2 := by
  by_cases hin : m.ngeoms ≤ pair.first ∨ m.ngeoms ≤ pair.second
  · rw [removeCollisionPair_of_invalid k m pair hin]
    exact ⟨by simp, h⟩
  · have h1 : pair.first < m.ngeoms := by omega
    have h2 : pair.second < m.ngeoms := by omega
    cases he : existCollisionPair k m pair
    · rw [removeCollisionPair_of_not_exist k m pair h1 h2 he]
      exact ⟨by simp, h⟩
    · rw [removeCollisionPair_of_exist k m pair h1 h2 he]
      refine ⟨by simp, ?_⟩
      obtain ⟨hwf, hnd, hv⟩ := h
      refine catalogInvariant_of_pairs k m _ hwf ?_ ?_
      · exact List.Pairwise.sublist (List.eraseIdx_sublist _ _) hnd
      · intro p hp
        exact hv p ((List.eraseIdx_sublist _ _).subset hp)

theorem addGeometryObjectWithModel_invariant (k : PairEquality) (m : GeometryModel)
    (object : GeometryObject) (model : Model) (h : CatalogInvariant k m) :
    CatalogInvariant k (addGeometryObjectWithModel m object model).2 ∧
      (object.parentFrame < model.frames.length →
        (addGeometryObjectWithModel m object model).1 ≠ .error .outOfRange) := by
  cases hfr : model.frames[object.parentFrame]? with
  | none =>
    have hlen : ¬ object.parentFrame < model.frames.length := by
      intro hlt
      rw [List.getElem?_eq_getElem hlt] at hfr
      cases hfr
    by_cases hpf : object.parentFrame < model.nframes
    · have hv : addGeometryObjectWithModel m object model = (.error .outOfRange, m) := by
        simp [addGeometryObjectWithModel, hpf, hfr]
      rw [hv]
      exact ⟨h, fun hlt => absurd hlt hlen⟩
    · have hv : addGeometryObjectWithModel m object model
          = (.error .outOfRange,
              { m with
                ngeoms := m.ngeoms + 1
                geometryObjects := m.geometryObjects ++ [object] }) := by
        simp [addGeometryObjectWithModel, hpf, hfr]
      rw [hv]
      exact ⟨catalogInvariant_push k m object h, fun hlt => absurd hlt hlen⟩
  | some fr =>
    by_cases hpf : object.parentFrame < model.nframes
    · by_cases hj : fr.parent = object.parentJoint
      · have hv := addGeometryObjectWithModel_of_match m object model fr hpf hfr hj
        rw [hv]
        exact ⟨catalogInvariant_push k m _ h, fun _ => by simp⟩
      · have hv := addGeometryObjectWithModel_of_mismatch m object model fr hpf hfr hj
        rw [hv]
        exact ⟨h, fun _ => by simp⟩
    · have hv : addGeometryObjectWithModel m object model
          = (.ok m.ngeoms,
              { m with
                ngeoms := m.ngeoms + 1
                geometryObjects :=
                  m.geometryObjects ++ [{ object with parentJoint := fr.parent }] }) := by
        simp [addGeometryObjectWithModel, hpf, hfr]
      rw [hv]
      exact ⟨catalogInvariant_push k m _ h, fun _ => by simp⟩

theorem dropValue_snd {σ α : Type} (r : Run σ α) : (dropValue r).2 = r.2 := by
  obtain ⟨o, s⟩ := r
  cases o <;> rfl

theorem dropValue_fst_ne {σ α : Type} (r : Run σ α) (h : r.1 ≠ .error .outOfRange) :
    (dropValue r).1 ≠ .error .outOfRange := by
  obtain ⟨o, s⟩ := r
  cases o with
  | ok v => simp [dropValue]
  | error e =>
    intro he
    apply h
    simp only [dropValue] at he
    cases he
    rfl

theorem Call.run_invariant (k : PairEquality) (m : GeometryModel) (c : Call)
    (h : CatalogInvariant k m) :
    CatalogInvariant k (Call.run k m c).2 ∧
      (c.frameInRange = true → (Call.run k m c).1 ≠ .error .outOfRange) := by
  cases c with
  | addGeometryObject object =>
    simp only [Call.run, dropValue_snd]
    exact ⟨catalogInvariant_push k m object h,
      fun _ => by simp [Pinocchio.addGeometryObject, dropValue]⟩
  | addGeometryObjectWithModel object model =>
    simp only [Call.run, dropValue_snd, Call.frameInRange, decide_eq_true_eq]
    have := addGeometryObjectWithModel_invariant k m object model h
    exact ⟨this.1, fun hlt => dropValue_fst_ne _ (this.2 hlt)⟩
  | addCollisionPair pair =>
    have := addCollisionPair_invariant k m pair h
    exact ⟨this.2, fun _ => this.1⟩
  | addAllCollisionPairs =>
    have := addAllCollisionPairs_invariant k m h
    exact ⟨this.2, fun _ => this.1⟩
  | removeCollisionPair pair =>
    have := removeCollisionPair_invariant k m pair h
    exact ⟨this.2, fun _ => this.1⟩
  | removeAllCollisionPairs =>
    simp only [Call.run]
    refine ⟨catalogInvariant_of_pairs k m [] h.1 List.Pairwise.nil ?_, fun _ => by simp⟩
    intro p hp
    cases hp

theorem runCalls_invariant (k : PairEquality) (cs : List Call) :
    ∀ m m1 : GeometryModel, CatalogInvariant k m → runCalls k cs m = some m1 →
      CatalogInvariant k m1 := by
  induction cs with
  | nil =>
    intro m m1 h hr
    simp only [runCalls, Option.some.injEq] at hr
    rw [← hr]
    exact h
  | cons c cs ih =>
    intro m m1 h hr
    unfold runCalls at hr
    split at hr
    · cases hr
    · exact ih _ m1 (Call.run_invariant k m c h).1 hr

theorem runCalls_defined (k : PairEquality) (cs : List Call) :
    ∀ m : GeometryModel, CatalogInvariant k m → (∀ c ∈ cs, c.frameInRange = true) →
      ∃ m1, runCalls k cs m = some m1 := by
  induction cs with
  | nil =>
    intro m _ _
    exact ⟨m, rfl⟩
  | cons c cs ih =>
    intro m h hc
    have hrun := Call.run_invariant k m c h
    have hne := hrun.2 (hc c (List.mem_cons_self _ _))
    unfold runCalls
    rw [if_neg hne]
    exact ih _ hrun.1 (fun c1 hc1 => hc c1 (List.mem_cons_of_mem _ hc1))

/-- C19: every run of `addGeometryObject` (either overload), `addCollisionPair`,
`addAllCollisionPairs`, `removeCollisionPair` and `removeAllCollisionPairs` calls from
the empty catalog, failed calls included, that ends with a catalog `m` leaves no two
stored pairs equal (nor equal under the pair comparison), every stored pair with both
indices below `ngeoms`, `ngeoms` equal to the number of stored objects, and
`fillInnerOuterObjectMaps` succeeding on `m` from any runtime state; and the run
does end with a catalog when every call that passes a kinematic model names a frame
stored in it. -/
theorem catalog_invariant (k : PairEquality) (cs : List Call) :
    (∀ m : GeometryModel, runCalls k cs emptyCatalog = some m →
        m.collisionPairs.Nodup ∧ NoEqualPairs k m.collisionPairs ∧
          (∀ p ∈ m.collisionPairs, p.first < m.ngeoms ∧ p.second < m.ngeoms) ∧
          m.ngeoms = m.geometryObjects.length ∧
          ∀ d : GeometryData, ∃ d1 : GeometryData,
            fillInnerOuterObjectMaps d m = (.ok (), d1)) ∧
      ((∀ c ∈ cs, c.frameInRange = true) →
        ∃ m : GeometryModel, runCalls k cs emptyCatalog = some m) := by
  refine ⟨?_, runCalls_defined k cs emptyCatalog (catalogInvariant_empty k)⟩
  intro m hr
  obtain ⟨hwf, hnd, hv⟩ := runCalls_invariant k cs emptyCatalog m (catalogInvariant_empty k) hr
  refine ⟨noEqualPairs_nodup k _ hnd, hnd, hv, hwf, ?_⟩
  intro d
  exact ⟨_, fillInnerOuterObjectMaps_eq d m
    (first_lt_length_of_valid m (Nat.le_of_eq hwf) hv)⟩

/-- Evaluation of C19 on a run of twelve calls, four of them failing: the catalog
reached holds the pairs `[(0,2),(2,0),(1,0)]` over three geometries under the
order-sensitive comparison, and `[(0,2),(1,0)]` when a reversed pair compares
equal. -/
theorem catalog_invariant_witness :
    (runCalls .exact sampleCalls emptyCatalog).map (fun m => (m.ngeoms, m.collisionPairs))
        = some (3, [⟨0, 2⟩, ⟨2, 0⟩, ⟨1, 0⟩]) ∧
      (runCalls .symmetric sampleCalls emptyCatalog).map (fun m => (m.ngeoms, m.collisionPairs))
        = some (3, [⟨0, 2⟩, ⟨1, 0⟩]) ∧
      ∃ m : GeometryModel, runCalls .exact sampleCalls emptyCatalog = some m :=
  ⟨by decide, by decide, (catalog_invariant .exact sampleCalls).2 (by decide)⟩

/-! ## The maps as a function of the catalog -/

theorem JointMap.total_pushBack (mp : JointMap) (j g : Nat) :
    JointMap.total (JointMap.pushBack mp j g) = JointMap.total mp + 1 := by
  induction mp with
  | nil => simp [JointMap.pushBack, JointMap.total]
  | cons e rest ih =>
    obtain ⟨k, v⟩ := e
    unfold JointMap.pushBack
    split
    · simp only [JointMap.total, List.map_cons, List.sum_cons, List.length_singleton]
      omega
    · split
      · simp only [JointMap.total, List.map_cons, List.sum_cons, List.length_append,
          List.length_singleton]
        omega
      · unfold JointMap.total at ih ⊢
        simp only [List.map_cons, List.sum_cons, ih]
        omega

theorem total_foldl_innerStep (objs : List GeometryObject) (gs : List Nat) :
    ∀ mp : JointMap, (∀ g ∈ gs, g < objs.length) →
      JointMap.total (gs.foldl (innerStep objs) mp) = JointMap.total mp + gs.length := by
  induction gs with
  | nil =>
    intro mp _
    simp
  | cons g rest ih =>
    intro mp hg
    have hlt : g < objs.length := hg g (List.mem_cons_self _ _)
    simp only [List.foldl_cons, List.length_cons]
    rw [ih _ (fun x hx => hg x (List.mem_cons_of_mem _ hx))]
    simp only [innerStep, List.getElem?_eq_getElem hlt, JointMap.total_pushBack]
    omega

theorem total_foldl_outerStep (objs : List GeometryObject) (ps : List CollisionPair) :
    ∀ mp : JointMap, (∀ p ∈ ps, p.first < objs.length) →
      JointMap.total (ps.foldl (outerStep objs) mp) = JointMap.total mp + ps.length := by
  induction ps with
  | nil =>
    intro mp _
    simp
  | cons p rest ih =>
    intro mp hp
    have hlt : p.first < objs.length := hp p (List.mem_cons_self _ _)
    simp only [List.foldl_cons, List.length_cons]
    rw [ih _ (fun x hx => hp x (List.mem_cons_of_mem _ hx))]
    simp only [outerStep, List.getElem?_eq_getElem hlt, JointMap.total_pushBack]
    omega

theorem mem_filter_hasJoint (objs : List GeometryObject) (J g : Nat) :
    g ∈ (List.range objs.length).filter (fun g => hasJoint objs g J) ↔
      ∃ o, objs[g]? = some o ∧ o.parentJoint = J := by
  rw [List.mem_filter, List.mem_range]
  unfold hasJoint
  constructor
  · rintro ⟨hlt, hj⟩
    rw [List.getElem?_eq_getElem hlt] at hj ⊢
    exact ⟨objs[g], rfl, by simpa using hj⟩
  · rintro ⟨o, ho, hj⟩
    have hlt : g < objs.length := by
      by_contra hge
      rw [List.getElem?_eq_none (Nat.le_of_not_lt hge)] at ho
      cases ho
    refine ⟨hlt, ?_⟩
    rw [ho]
    simpa using hj

/-- C20: when `ngeoms` equals the number of stored objects and every stored pair has
both indices below `ngeoms`, `fillInnerOuterObjectMaps` succeeds from any runtime
state `d`, changes its two maps only, and in the state `d1` it leaves, for every
joint `J`: `innerObjects[J]` is the list of the indices `g < ngeoms` whose object
has parent joint `J`, strictly increasing and holding exactly those indices;
`outerObjects[J]` is the list of `pair.second`, in pair-list order, over the stored
pairs whose first object has parent joint `J`. The inner lists' lengths add up to
`ngeoms`, the outer lists' to the pair count; from any other state `d0` the call
builds the same two maps; and a second call on `d1` returns `d1`. -/
theorem fillInnerOuterObjectMaps_function_of_catalog (d : GeometryData) (m : GeometryModel)
    (hwf : m.ngeoms = m.geometryObjects.length) (hv : ValidPairs m) :
    ∃ d1 : GeometryData,
      fillInnerOuterObjectMaps d m = (.ok (), d1) ∧
        d1 = { d with innerObjects := d1.innerObjects, outerObjects := d1.outerObjects } ∧
        (∀ J : Nat, JointMap.get d1.innerObjects J
          = (List.range m.ngeoms).filter (fun g => hasJoint m.geometryObjects g J)) ∧
        (∀ J : Nat, (JointMap.get d1.innerObjects J).Pairwise (fun a b => a < b)) ∧
        (∀ J g : Nat, g ∈ JointMap.get d1.innerObjects J ↔
          ∃ o, m.geometryObjects[g]? = some o ∧ o.parentJoint = J) ∧
        (∀ J : Nat, JointMap.get d1.outerObjects J
          = (m.collisionPairs.filter (fun p => hasJoint m.geometryObjects p.first J)).map
              (fun p => p.second)) ∧
        JointMap.total d1.innerObjects = m.ngeoms ∧
        JointMap.total d1.outerObjects = m.collisionPairs.length ∧
        (∀ d0 : GeometryData,
          (fillInnerOuterObjectMaps d0 m).1 = .ok () ∧
            (fillInnerOuterObjectMaps d0 m).2.innerObjects = d1.innerObjects ∧
            (fillInnerOuterObjectMaps d0 m).2.outerObjects = d1.outerObjects) ∧
        fillInnerOuterObjectMaps d1 m = (.ok (), d1) := by
  have hp := first_lt_length_of_valid m (Nat.le_of_eq hwf) hv
  have hin := (foldl_innerStep_spec m.geometryObjects
    (List.range m.geometryObjects.length) [] sorted_nil).2
  have hout := (foldl_outerStep_spec m.geometryObjects m.collisionPairs [] sorted_nil).2
  refine ⟨_, fillInnerOuterObjectMaps_eq d m hp, rfl, ?_, ?_, ?_, ?_, ?_, ?_, ?_, ?_⟩
  · intro J
    show JointMap.get ((List.range m.geometryObjects.length).foldl
      (innerStep m.geometryObjects) []) J = _
    rw [hin, hwf]
    simp [JointMap.get]
  · intro J
    show (JointMap.get ((List.range m.geometryObjects.length).foldl
      (innerStep m.geometryObjects) []) J).Pairwise (fun a b => a < b)
    rw [hin]
    simp only [JointMap.get, List.nil_append]
    apply List.Pairwise.filter
    rw [List.range_eq_range']
    exact List.pairwise_lt_range' 0 _
  · intro J g
    show g ∈ JointMap.get ((List.range m.geometryObjects.length).foldl
      (innerStep m.geometryObjects) []) J ↔ _
    rw [hin]
    simp only [JointMap.get, List.nil_append]
    exact mem_filter_hasJoint m.geometryObjects J g
  · intro J
    show JointMap.get (m.collisionPairs.foldl (outerStep m.geometryObjects) []) J = _
    rw [hout]
    simp [JointMap.get]
  · show JointMap.total ((List.range m.geometryObjects.length).foldl
      (innerStep m.geometryObjects) []) = m.ngeoms
    rw [total_foldl_innerStep _ _ _ (fun g hg => List.mem_range.1 hg), hwf]
    simp [JointMap.total]
  · show JointMap.total (m.collisionPairs.foldl (outerStep m.geometryObjects) [])
      = m.collisionPairs.length
    rw [total_foldl_outerStep _ _ _ hp]
    simp [JointMap.total]
  · intro d0
    rw [fillInnerOuterObjectMaps_eq d0 m hp]
    exact ⟨rfl, rfl, rfl⟩
  · rw [fillInnerOuterObjectMaps_eq _ m hp]

/-- Evaluation of C20 on the joints `[0,0,1]` with the pairs `[(0,2),(1,2)]`: from a
state whose maps hold other entries the call builds `{0: [0,1], 1: [2]}` and
`{0: [2,2]}`, and a second call changes nothing. -/
theorem fillInnerOuterObjectMaps_function_of_catalog_witness :
    fillInnerOuterObjectMaps
        { data001 with innerObjects := [(7, [9])], outerObjects := [(0, [1]), (4, [])] }
        catalog001Pairs
        = (.ok (), data001) ∧
      data001.innerObjects = [(0, [0, 1]), (1, [2])] ∧
      data001.outerObjects = [(0, [2, 2])] ∧
      fillInnerOuterObjectMaps data001 catalog001Pairs = (.ok (), data001) ∧
      ∃ d1 : GeometryData,
        fillInnerOuterObjectMaps data001 catalog001Pairs = (.ok (), d1) ∧
          JointMap.total d1.innerObjects = catalog001Pairs.ngeoms ∧
          JointMap.total d1.outerObjects = catalog001Pairs.collisionPairs.length := by
  refine ⟨by decide, by decide, by decide, by decide, ?_⟩
  obtain ⟨d1, h1, _, _, _, _, _, h7, h8, _, _⟩ :=
    fillInnerOuterObjectMaps_function_of_catalog data001 catalog001Pairs (by decide)
      (by unfold ValidPairs; decide)
  exact ⟨d1, h1, h7, h8⟩

end Pinocchio
